import Mathlib

/-!
# UST consumer: sub-buffer transfer and command dispatch

Shallow embedding of `src/common/ust-consumer/ust-consumer.c`.

Conventions of the embedding.

* A system call is answered by the head of a *script* (a list of results,
  each the returned value together with `errno`).  A run that needs more
  results than the script holds yields `none`.
* Every externally visible action is recorded, in program order, in a
  trace of `Event`s.
* C `long`, `ssize_t` and `off_t` values are mathematical integers: signed
  overflow is undefined in C, so there is no wrap-around to embed.  The
  `unsigned long` read offset wraps modulo `2 ^ 64`; `len -= ret` is only
  executed when `0 ≤ ret ≤ len`, so it never wraps.  The conversion of a
  `long` to the `int` a function returns is `int_of_long`.
* An `assert` that fails ends the run with `Exit.assert_failed`.
-/

namespace LttngUst

/-! ## System calls and events -/

/-- Answer of one `read`/`write` call: returned value and `errno`. -/
structure SysRes where
  ret : Int
  errno : Int
deriving DecidableEq

def ENOENT : Int := 2
def EINTR : Int := 4
def ENOSYS : Int := 38

/-- The three `write` call sites of the file: line 92 (metadata stream id),
line 109 (payload) and line 433 (wake-up pipe). -/
inductive WriteSite where
  | metadata_id
  | payload
  | wakeup
deriving DecidableEq

/-- Error codes given to `lttng_consumer_send_error`. -/
inductive SendError where
  | CONSUMERD_ERROR_RECV_FD
  | CONSUMERD_OUTFD_ERROR
deriving DecidableEq

/-- Externally visible actions, in the order the program performs them. -/
inductive Event where
  | mutex_lock (net_seq_idx : Int)
  | mutex_unlock (net_seq_idx : Int)
  | get_mmap_read_offset (ret : Int)
  | handle_stream_before_relayd (len : Nat) (ret : Int)
  | write (site : WriteSite) (fd : Int) (buf : List Nat) (res : SysRes)
  | sync_file_range (fd : Int) (offset : Int) (nbytes : Int)
  | sync_trace_file (orig_offset : Int)
  | read_wait_fd (fd : Int) (res : SysRes)
  | get_next_subbuf (err : Int)
  | get_padded_subbuf_size (err : Int) (len : Nat)
  | put_next_subbuf (err : Int)
  | send_error (code : SendError)
  | poll_socket (ret : Int)
  | recv_fds (nb_fd : Nat) (ret : Int)
  | create_sock (ret : Int)
  | close (fd : Int)
  | relayd_add_stream (net_seq_idx : Int) (ret : Int)
  | on_recv_channel (key : Int) (ret : Int)
  | on_recv_stream (key : Int) (ret : Int)
  | free_stream (key : Int)
deriving DecidableEq

/-- How a function ends: it returns a value, or one of its `assert`s fails. -/
inductive Exit where
  | returned (v : Int)
  | assert_failed
deriving DecidableEq

/-- Conversion of a `long`/`ssize_t` value to the `int` a function returns
(two's complement truncation to 32 bits). -/
def int_of_long (x : Int) : Int := (x + 2 ^ 31) % 2 ^ 32 - 2 ^ 31

/-! ## Data model -/

/-- Output modes of a stream (`enum lttng_event_output`). -/
inductive lttng_event_output where
  | LTTNG_EVENT_SPLICE
  | LTTNG_EVENT_MMAP
deriving DecidableEq

/-- The fields of `struct lttng_consumer_stream` the file reads or writes.
`mmap_base` gives the byte stored at each offset of the mapped region. -/
structure lttng_consumer_stream where
  key : Int
  chan_key : Int
  shm_fd : Int
  wait_fd : Int
  state : Int
  mmap_len : Nat
  output : lttng_event_output
  path_name : List Nat
  uid : Nat
  gid : Nat
  net_seq_idx : Int
  metadata_flag : Bool
  relayd_stream_id : Nat
  out_fd : Int
  out_fd_offset : Int
  hangup_flush_done : Bool
  mmap_base : Nat → Nat

/-- The fields of `struct lttng_consumer_channel` the file uses. -/
structure lttng_consumer_channel where
  key : Int
  shm_fd : Int
  wait_fd : Int
  mmap_len : Nat
  max_sb_size : Nat
deriving DecidableEq

/-- A `struct lttcomm_sock`: the descriptor and the rest of the socket
description (address, protocol), kept as one number. -/
structure lttcomm_sock where
  fd : Int
  info : Nat
deriving DecidableEq

/-- A relay peer (`struct consumer_relayd_sock_pair`); its
`ctrl_sock_mutex` is followed through the lock and unlock events. -/
structure consumer_relayd_sock_pair where
  net_seq_idx : Int
  control_sock : lttcomm_sock
  data_sock : lttcomm_sock
deriving DecidableEq

/-- The registries of `consumer_data`. -/
structure lttng_consumer_global_data where
  stream_ht : List lttng_consumer_stream
  channel_ht : List lttng_consumer_channel
  relayd_ht : List consumer_relayd_sock_pair

/-- Modelled from the spec: `consumer_find_relayd` is defined in
`common/consumer.c`, which is not part of the sources at hand; it is the
registry operation `lookup(key) -> Option<record>` of section 4.1 on the
relay registry. -/
def consumer_find_relayd (data : lttng_consumer_global_data) (key : Int) :
    Option consumer_relayd_sock_pair :=
  data.relayd_ht.find? (fun r => decide (r.net_seq_idx = key))

/-! ## `lttng_ustconsumer_on_read_subbuffer_mmap` (lines 48-143) -/

/-- Answers of the external collaborators called by the mmap transfer:
`ustctl_get_mmap_read_offset` (returned value and the offset it stores) and
`consumer_handle_stream_before_relayd` (returned value). -/
structure MmapEnv where
  get_mmap_read_offset_ret : Int
  mmap_offset : Nat
  handle_stream_before_relayd_ret : Int

/-- What a call of the mmap transfer leaves behind: the returned value
(`written`), the stream as updated, and the actions performed. -/
structure MmapResult where
  ret : Int
  stream : lttng_consumer_stream
  trace : List Event

/-- The bytes `htobe64 x` puts in memory: most significant byte first. -/
def htobe64 (x : Nat) : List Nat :=
  [x / 2 ^ 56 % 256, x / 2 ^ 48 % 256, x / 2 ^ 40 % 256, x / 2 ^ 32 % 256,
   x / 2 ^ 24 % 256, x / 2 ^ 16 % 256, x / 2 ^ 8 % 256, x % 256]

/-- The buffer `stream->mmap_base + mmap_offset` of `len` bytes. -/
def mmap_buf (stream : lttng_consumer_stream) (mmap_offset len : Nat) : List Nat :=
  (List.range len).map (fun i => stream.mmap_base (mmap_offset + i))

/-- The loop `do { ret = write(...); } while (ret < 0 && errno == EINTR);`
(lines 91-94 and 432-434): the interrupted attempts, the first answer that
ends the loop, and the rest of the script. -/
def write_retry : List SysRes → Option (List SysRes × SysRes × List SysRes)
  | [] => none
  | r :: rest =>
    if r.ret < 0 ∧ r.errno = EINTR then
      (write_retry rest).map (fun p => (r :: p.1, p.2.1, p.2.2))
    else some ([], r, rest)

/-- Prepend actions to the trace of a result. -/
def MmapResult.after (evs : List Event) (r : MmapResult) : MmapResult :=
  { r with trace := evs ++ r.trace }

/-- The payload loop, lines 107-136, up to the label `end`.

Each `write` of line 109 takes the next answer of the script.  The inner
`do ... while (ret < 0 && errno == EINTR)` issues the same call again with
every variable unchanged: that is the first branch below.  `relayd` says
whether the relay pointer is non-NULL. -/
def mmap_write_loop (relayd : Bool) (outfd orig_offset : Int) :
    lttng_consumer_stream → Nat → Nat → Int → List SysRes → Option MmapResult
  | stream, len, mmap_offset, written, script =>
    if len = 0 then
      -- loop exit: lttng_consumer_sync_trace_file(stream, orig_offset)
      some ⟨written, stream, [Event.sync_trace_file orig_offset]⟩
    else
      match script with
      | [] => none
      | r :: rest =>
        let ev := Event.write WriteSite.payload outfd (mmap_buf stream mmap_offset len) r
        if r.ret < 0 ∧ r.errno = EINTR then
          (mmap_write_loop relayd outfd orig_offset stream len mmap_offset written rest).map
            (MmapResult.after [ev])
        else if r.ret < 0 then
          some ⟨if written = 0 then r.ret else written, stream, [ev]⟩
        else if r.ret > (len : Int) then
          some ⟨written + r.ret, stream, [ev]⟩
        else
          let len1 := len - r.ret.toNat
          let mmap_offset1 := (mmap_offset + r.ret.toNat) % 2 ^ 64
          if relayd then
            (mmap_write_loop relayd outfd orig_offset stream len1 mmap_offset1
              (written + r.ret) rest).map (MmapResult.after [ev])
          else
            (mmap_write_loop relayd outfd orig_offset
              { stream with out_fd_offset := stream.out_fd_offset + r.ret } len1 mmap_offset1
              (written + r.ret) rest).map
              (MmapResult.after [ev, Event.sync_file_range outfd stream.out_fd_offset r.ret])

/-- The actions at the label `end` (lines 138-142): an unlock when the relay
pointer is set and the stream is the metadata stream. -/
def unlock_at_end (relayd : Option consumer_relayd_sock_pair) (metadata_flag : Bool) :
    List Event :=
  match relayd with
  | some rl => if metadata_flag then [Event.mutex_unlock rl.net_seq_idx] else []
  | none => []

/-- The label `end` (lines 138-142), then `return written`. -/
def mmap_end (relayd : Option consumer_relayd_sock_pair) (r : MmapResult) : MmapResult :=
  { r with trace := r.trace ++ unlock_at_end relayd r.stream.metadata_flag }

/-- The function `lttng_ustconsumer_on_read_subbuffer_mmap`, lines 48-143.
`script` answers the `write` calls in the order they are made. -/
def lttng_ustconsumer_on_read_subbuffer_mmap (data : lttng_consumer_global_data)
    (env : MmapEnv) (stream : lttng_consumer_stream) (len : Nat) (script : List SysRes) :
    Option MmapResult :=
  let orig_offset := stream.out_fd_offset
  let outfd := stream.out_fd
  let relayd : Option consumer_relayd_sock_pair :=
    if stream.net_seq_idx ≠ -1 then consumer_find_relayd data stream.net_seq_idx else none
  if stream.net_seq_idx ≠ -1 ∧ relayd = none then
    -- line 63: goto end, written is still 0
    some (mmap_end relayd ⟨0, stream, []⟩)
  else
    let ret := env.get_mmap_read_offset_ret
    if ret ≠ 0 then
      -- lines 70-75
      some (mmap_end relayd ⟨ret, stream, [Event.get_mmap_read_offset ret]⟩)
    else
      match relayd with
      | none =>
        (mmap_write_loop false outfd orig_offset stream len env.mmap_offset 0 script).map
          (fun r => mmap_end relayd (r.after [Event.get_mmap_read_offset ret]))
      | some rl =>
        let lock := if stream.metadata_flag then [Event.mutex_lock rl.net_seq_idx] else []
        let ret1 := env.handle_stream_before_relayd_ret
        let pre := [Event.get_mmap_read_offset ret] ++ lock ++
          [Event.handle_stream_before_relayd len ret1]
        if ret1 ≥ 0 ∧ stream.metadata_flag then
          -- lines 86-102: outfd = ret, then the stream id is written first
          match write_retry script with
          | none => none
          | some (tries, r, rest) =>
            let evs := (tries ++ [r]).map
              (Event.write WriteSite.metadata_id ret1 (htobe64 stream.relayd_stream_id))
            if r.ret < 0 then
              some (mmap_end relayd ⟨r.ret, stream, pre ++ evs⟩)
            else
              (mmap_write_loop true ret1 orig_offset stream len env.mmap_offset 0 rest).map
                (fun x => mmap_end relayd (x.after (pre ++ evs)))
        else
          let outfd1 := if ret1 ≥ 0 then ret1 else outfd
          (mmap_write_loop true outfd1 orig_offset stream len env.mmap_offset 0 script).map
            (fun x => mmap_end relayd (x.after pre))

/-! ## Observations on a trace -/

/-- The bytes a sink accepted in one action: for a `write` of the transfer
that returned `ret ≥ 0`, the first `ret` bytes of the buffer given. -/
def Event.accepted : Event → List Nat
  | Event.write WriteSite.metadata_id _ buf res => buf.take res.ret.toNat
  | Event.write WriteSite.payload _ buf res => buf.take res.ret.toNat
  | _ => []

/-- The bytes emitted to the output descriptor during a trace, in order. -/
def emitted : List Event → List Nat
  | [] => []
  | e :: t => e.accepted ++ emitted t

/-! ## `lttng_ustconsumer_read_subbuffer` (lines 501-559) -/

/-- Answers of the ring-buffer adapter during one drain cycle:
`ustctl_get_next_subbuf`, `ustctl_get_padded_subbuf_size` (returned value and
the length it stores) and `ustctl_put_next_subbuf`. -/
structure ReadEnv where
  get_next_subbuf_err : Int
  get_padded_subbuf_size_err : Int
  len : Nat
  put_next_subbuf_err : Int

/-- What a drain cycle leaves behind. -/
structure ReadResult where
  exit : Exit
  stream : lttng_consumer_stream
  trace : List Event

/-- The loop `do { readlen = read(...); } while (readlen == -1 && errno == EINTR);`
(lines 517-519): the interrupted attempts and the answer that ends the loop. -/
def read_retry : List SysRes → Option (List SysRes × SysRes)
  | [] => none
  | r :: rest =>
    if r.ret = -1 ∧ r.errno = EINTR then
      (read_retry rest).map (fun p => (r :: p.1, p.2))
    else some ([], r)

/-- Lines 526-558 of `lttng_ustconsumer_read_subbuffer`: from the call of
`ustctl_get_next_subbuf` to the return.  `ret` is the local `long ret`, still
at its initial value 0 when this part starts.  `on_read_subbuffer_mmap` is the
dispatcher `lttng_consumer_on_read_subbuffer_mmap` of `common/consumer.c`. -/
def read_subbuffer_next
    (on_read_subbuffer_mmap : lttng_consumer_stream → Nat → Option MmapResult)
    (env : ReadEnv) (stream : lttng_consumer_stream) (ret : Int) : Option ReadResult :=
  let err := env.get_next_subbuf_err
  if err ≠ 0 then
    -- line 531: ret = -ret
    some ⟨Exit.returned (int_of_long (-ret)), stream, [Event.get_next_subbuf err]⟩
  else if stream.output ≠ lttng_event_output.LTTNG_EVENT_MMAP then
    some ⟨Exit.assert_failed, stream, [Event.get_next_subbuf err]⟩
  else
    let err1 := env.get_padded_subbuf_size_err
    let pre := [Event.get_next_subbuf err, Event.get_padded_subbuf_size err1 env.len]
    if err1 ≠ 0 then
      some ⟨Exit.assert_failed, stream, pre⟩
    else
      match on_read_subbuffer_mmap stream env.len with
      | none => none
      | some r =>
        let err2 := env.put_next_subbuf_err
        let tr := pre ++ r.trace ++ [Event.put_next_subbuf err2]
        if err2 ≠ 0 then
          some ⟨Exit.assert_failed, r.stream, tr⟩
        else
          some ⟨Exit.returned (int_of_long r.ret), r.stream, tr⟩

/-- The function `lttng_ustconsumer_read_subbuffer`, lines 501-559.  `reads`
answers the `read` calls on the wait descriptor. -/
def lttng_ustconsumer_read_subbuffer
    (on_read_subbuffer_mmap : lttng_consumer_stream → Nat → Option MmapResult)
    (env : ReadEnv) (stream : lttng_consumer_stream) (reads : List SysRes) :
    Option ReadResult :=
  let ret : Int := 0
  if ¬ stream.hangup_flush_done then
    match read_retry reads with
    | none => none
    | some (tries, r) =>
      let evs := (tries ++ [r]).map (Event.read_wait_fd stream.wait_fd)
      if r.ret = -1 then
        -- lines 520-523: ret = readlen; goto end
        some ⟨Exit.returned (int_of_long r.ret), stream, evs⟩
      else
        (read_subbuffer_next on_read_subbuffer_mmap env stream ret).map
          (fun x => { x with trace := evs ++ x.trace })
  else
    read_subbuffer_next on_read_subbuffer_mmap env stream ret

/-! ## `lttng_ustconsumer_recv_cmd` (lines 198-437) -/

/-- Values of `msg.cmd_type`. -/
inductive lttng_consumer_command where
  | LTTNG_CONSUMER_ADD_CHANNEL
  | LTTNG_CONSUMER_ADD_STREAM
  | LTTNG_CONSUMER_UPDATE_STREAM
  | LTTNG_CONSUMER_STOP
  | LTTNG_CONSUMER_ADD_RELAYD_SOCKET
  | other (code : Nat)
deriving DecidableEq

/-- Values of `msg.u.relayd_sock.type`. -/
inductive lttng_stream_type where
  | LTTNG_STREAM_CONTROL
  | LTTNG_STREAM_DATA
  | other (code : Nat)
deriving DecidableEq

/-- The fields of `struct lttcomm_consumer_msg` the file reads, with the
union `u` laid out flat.  `channel_key` is the member the code reads as
`msg.u.channel.channel_key` both for ADD_CHANNEL and for ADD_STREAM
(line 348). -/
structure lttcomm_consumer_msg where
  cmd_type : lttng_consumer_command
  relayd_net_index : Int
  relayd_type : lttng_stream_type
  relayd_sock : lttcomm_sock
  channel_key : Int
  channel_mmap_len : Nat
  channel_max_sb_size : Nat
  stream_key : Int
  stream_state : Int
  stream_mmap_len : Nat
  stream_output : lttng_event_output
  stream_name : List Nat
  stream_path_name : List Nat
  stream_uid : Nat
  stream_gid : Nat
  stream_net_index : Int
  stream_metadata_flag : Bool

/-- The fields of `struct lttng_consumer_local_data` the file uses: the two
optional hooks (a hook answers with its returned value and the record as it
leaves it) and the write end of the wake-up pipe. -/
structure lttng_consumer_local_data where
  on_recv_channel : Option (lttng_consumer_channel → Int × lttng_consumer_channel)
  on_recv_stream : Option (lttng_consumer_stream → Int × lttng_consumer_stream)
  consumer_poll_pipe_1 : Int

/-- Answers of the external collaborators of the command dispatcher.
`sizeof_msg` is `sizeof(struct lttcomm_consumer_msg)`, a structure declared
in a header that is not part of the sources at hand. -/
structure RecvEnv where
  sizeof_msg : Nat
  recv_ret : Int
  msg : lttcomm_consumer_msg
  allocate_relayd_ok : Bool
  poll_socket_ret : Int
  recv_fds_ret : Int
  fds0 : Int
  fds1 : Int
  create_sock_ret : Int
  create_sock_fd : Int
  allocate_channel_ok : Bool
  allocate_stream_ok : Bool
  relayd_add_stream_ret : Int
  relayd_stream_id : Nat

/-- What one call of the dispatcher leaves behind. -/
structure RecvResult where
  exit : Exit
  data : lttng_consumer_global_data
  trace : List Event

/-- Modelled from the spec: `consumer_allocate_relayd_sock_pair` is defined in
`common/consumer.c`, not part of the sources at hand; section 4.2 says that a
RelayPeer is allocated for the index when absent, its socket slots filled in
by later commands. -/
def consumer_allocate_relayd_sock_pair (net_seq_idx : Int) : consumer_relayd_sock_pair :=
  ⟨net_seq_idx, ⟨-1, 0⟩, ⟨-1, 0⟩⟩

/-- Modelled from the spec: `consumer_add_relayd` is defined in
`common/consumer.c`, not part of the sources at hand; it is the registry
operation `insert_unique` of section 4.1 (nothing changes when the key is
already there). -/
def consumer_add_relayd (data : lttng_consumer_global_data)
    (relayd : consumer_relayd_sock_pair) : lttng_consumer_global_data :=
  if data.relayd_ht.any (fun r => decide (r.net_seq_idx = relayd.net_seq_idx)) then data
  else { data with relayd_ht := data.relayd_ht ++ [relayd] }

/-- Modelled from the spec: `consumer_add_channel` is defined in
`common/consumer.c`, not part of the sources at hand; it is `insert_unique`
of section 4.1 on the channel registry. -/
def consumer_add_channel (data : lttng_consumer_global_data)
    (channel : lttng_consumer_channel) : lttng_consumer_global_data :=
  if data.channel_ht.any (fun c => decide (c.key = channel.key)) then data
  else { data with channel_ht := data.channel_ht ++ [channel] }

/-- Modelled from the spec: `consumer_add_stream` is defined in
`common/consumer.c`, not part of the sources at hand; it is `insert_unique`
of section 4.1 on the stream registry. -/
def consumer_add_stream (data : lttng_consumer_global_data)
    (stream : lttng_consumer_stream) : lttng_consumer_global_data :=
  if data.stream_ht.any (fun s => decide (s.key = stream.key)) then data
  else { data with stream_ht := data.stream_ht ++ [stream] }

/-- Modelled from the spec: `consumer_allocate_channel` is defined in
`common/consumer.c`, not part of the sources at hand; section 4.4 says a
Channel is constructed from the message's key, the received descriptor, the
mapped length and the maximum sub-buffer size. -/
def consumer_allocate_channel (channel_key shm_fd wait_fd : Int)
    (mmap_len max_sb_size : Nat) : lttng_consumer_channel :=
  ⟨channel_key, shm_fd, wait_fd, mmap_len, max_sb_size⟩

/-- Modelled from the spec: `consumer_allocate_stream` is defined in
`common/consumer.c`, not part of the sources at hand; section 3 lists the
attributes of a Stream, here taken from the arguments in the order of the call
at lines 348-358; the output descriptor is not yet open, its offset is 0 and
no relay identifier is assigned. -/
def consumer_allocate_stream (channel_key stream_key shm_fd wait_fd state : Int)
    (mmap_len : Nat) (output : lttng_event_output) (path_name : List Nat) (uid gid : Nat)
    (net_index : Int) (metadata_flag : Bool) : lttng_consumer_stream :=
  { key := stream_key, chan_key := channel_key, shm_fd := shm_fd, wait_fd := wait_fd,
    state := state, mmap_len := mmap_len, output := output, path_name := path_name,
    uid := uid, gid := gid, net_seq_idx := net_index, metadata_flag := metadata_flag,
    relayd_stream_id := 0, out_fd := -1, out_fd_offset := 0, hangup_flush_done := false,
    mmap_base := fun _ => 0 }

/-- The relay registry after the record found under `relayd.net_seq_idx` was
changed in place to `relayd`; nothing changes when `found` is false (the
record was freshly allocated and is not in the registry). -/
def relayd_store (data : lttng_consumer_global_data) (found : Bool)
    (relayd : consumer_relayd_sock_pair) : lttng_consumer_global_data :=
  let upd := fun (r : consumer_relayd_sock_pair) =>
    if r.net_seq_idx = relayd.net_seq_idx then relayd else r
  if found then { data with relayd_ht := data.relayd_ht.map upd } else data

/-- The label `end` of the dispatcher (lines 420-436): one byte is written to
`consumer_poll_pipe[1]`, the call repeated while it is interrupted, and 0 is
returned. -/
def recv_cmd_end (ctx : lttng_consumer_local_data) (data : lttng_consumer_global_data)
    (trace : List Event) (script : List SysRes) : Option RecvResult :=
  match write_retry script with
  | none => none
  | some (tries, r, _) =>
    some ⟨Exit.returned 0, data,
      trace ++ (tries ++ [r]).map (Event.write WriteSite.wakeup ctx.consumer_poll_pipe_1 [0])⟩

/-- The label `end_nosignal` (lines 435-436): return 0. -/
def recv_cmd_end_nosignal (data : lttng_consumer_global_data) (trace : List Event) :
    RecvResult :=
  ⟨Exit.returned 0, data, trace⟩

/-- The size of an `int`, in bytes: `sizeof(fd)` and `sizeof(fds)` are this
size times the number of descriptors. -/
def sizeof_int : Int := 4

/-- Case `LTTNG_CONSUMER_ADD_RELAYD_SOCKET`, lines 214-291.  Every path of it
ends at `end_nosignal` or returns directly. -/
def recv_add_relayd_socket (env : RecvEnv) (data : lttng_consumer_global_data) :
    RecvResult :=
  let msg := env.msg
  let found := consumer_find_relayd data msg.relayd_net_index
  if found = none ∧ env.allocate_relayd_ok = false then
    -- lines 227-230
    recv_cmd_end_nosignal data [Event.send_error SendError.CONSUMERD_OUTFD_ERROR]
  else
    let relayd := found.getD (consumer_allocate_relayd_sock_pair msg.relayd_net_index)
    if env.poll_socket_ret < 0 then
      ⟨Exit.returned (-EINTR), data, [Event.poll_socket env.poll_socket_ret]⟩
    else
      let ret := env.recv_fds_ret
      let fd := env.fds0
      let pre := [Event.poll_socket env.poll_socket_ret, Event.recv_fds 1 ret]
      if ret ≠ sizeof_int then
        recv_cmd_end_nosignal data
          (pre ++ [Event.send_error SendError.CONSUMERD_ERROR_RECV_FD])
      else
        match msg.relayd_type with
        | lttng_stream_type.LTTNG_STREAM_CONTROL =>
          let copied := { relayd with control_sock := msg.relayd_sock }
          let ret1 := env.create_sock_ret
          if ret1 < 0 then
            recv_cmd_end_nosignal (relayd_store data found.isSome copied)
              (pre ++ [Event.create_sock ret1])
          else
            let final := { copied with control_sock := ⟨fd, copied.control_sock.info⟩ }
            recv_cmd_end_nosignal
              (consumer_add_relayd (relayd_store data found.isSome final) final)
              (pre ++ [Event.create_sock ret1, Event.close env.create_sock_fd])
        | lttng_stream_type.LTTNG_STREAM_DATA =>
          let copied := { relayd with data_sock := msg.relayd_sock }
          let ret1 := env.create_sock_ret
          if ret1 < 0 then
            recv_cmd_end_nosignal (relayd_store data found.isSome copied)
              (pre ++ [Event.create_sock ret1])
          else
            let final := { copied with data_sock := ⟨fd, copied.data_sock.info⟩ }
            recv_cmd_end_nosignal
              (consumer_add_relayd (relayd_store data found.isSome final) final)
              (pre ++ [Event.create_sock ret1, Event.close env.create_sock_fd])
        | lttng_stream_type.other _ =>
          recv_cmd_end_nosignal data pre

/-- Case `LTTNG_CONSUMER_ADD_CHANNEL`, lines 292-329.  Every path of it ends
at `end_nosignal` or returns directly. -/
def recv_add_channel (ctx : lttng_consumer_local_data) (env : RecvEnv)
    (data : lttng_consumer_global_data) : RecvResult :=
  let msg := env.msg
  if env.poll_socket_ret < 0 then
    ⟨Exit.returned (-EINTR), data, [Event.poll_socket env.poll_socket_ret]⟩
  else
    let ret := env.recv_fds_ret
    let pre := [Event.poll_socket env.poll_socket_ret, Event.recv_fds 1 ret]
    if ret ≠ 1 * sizeof_int then
      ⟨Exit.returned (int_of_long ret), data,
        pre ++ [Event.send_error SendError.CONSUMERD_ERROR_RECV_FD]⟩
    else if env.allocate_channel_ok = false then
      recv_cmd_end_nosignal data (pre ++ [Event.send_error SendError.CONSUMERD_OUTFD_ERROR])
    else
      let new_channel := consumer_allocate_channel msg.channel_key env.fds0 (-1)
        msg.channel_mmap_len msg.channel_max_sb_size
      match ctx.on_recv_channel with
      | some hook =>
        let p := hook new_channel
        let tr := pre ++ [Event.on_recv_channel new_channel.key p.1]
        if p.1 = 0 then recv_cmd_end_nosignal (consumer_add_channel data p.2) tr
        else recv_cmd_end_nosignal data tr
      | none => recv_cmd_end_nosignal (consumer_add_channel data new_channel) pre

/-- Lines 383-397 of the case `LTTNG_CONSUMER_ADD_STREAM`: the optional hook,
the registration of the stream, and the `break` that leads to `end`. -/
def recv_add_stream_hook (ctx : lttng_consumer_local_data)
    (data : lttng_consumer_global_data) (new_stream : lttng_consumer_stream)
    (trace : List Event) (script : List SysRes) : Option RecvResult :=
  match ctx.on_recv_stream with
  | some hook =>
    let p := hook new_stream
    let tr := trace ++ [Event.on_recv_stream new_stream.key p.1]
    if p.1 = 0 then recv_cmd_end ctx (consumer_add_stream data p.2) tr script
    else recv_cmd_end ctx data tr script
  | none => recv_cmd_end ctx (consumer_add_stream data new_stream) trace script

/-- Case `LTTNG_CONSUMER_ADD_STREAM`, lines 330-398. -/
def recv_add_stream (ctx : lttng_consumer_local_data) (env : RecvEnv)
    (data : lttng_consumer_global_data) (script : List SysRes) : Option RecvResult :=
  let msg := env.msg
  if env.poll_socket_ret < 0 then
    some ⟨Exit.returned (-EINTR), data, [Event.poll_socket env.poll_socket_ret]⟩
  else
    let ret := env.recv_fds_ret
    let pre := [Event.poll_socket env.poll_socket_ret, Event.recv_fds 2 ret]
    if ret ≠ 2 * sizeof_int then
      some ⟨Exit.returned (int_of_long ret), data,
        pre ++ [Event.send_error SendError.CONSUMERD_ERROR_RECV_FD]⟩
    else if msg.stream_output ≠ lttng_event_output.LTTNG_EVENT_MMAP then
      -- line 347
      some ⟨Exit.assert_failed, data, pre⟩
    else if env.allocate_stream_ok = false then
      recv_cmd_end ctx data (pre ++ [Event.send_error SendError.CONSUMERD_OUTFD_ERROR]) script
    else
      let new_stream := consumer_allocate_stream msg.channel_key msg.stream_key env.fds0
        env.fds1 msg.stream_state msg.stream_mmap_len msg.stream_output msg.stream_path_name
        msg.stream_uid msg.stream_gid msg.stream_net_index msg.stream_metadata_flag
      match consumer_find_relayd data msg.stream_net_index with
      | some relayd =>
        let ret1 := env.relayd_add_stream_ret
        let tr := pre ++ [Event.mutex_lock relayd.net_seq_idx,
          Event.relayd_add_stream relayd.net_seq_idx ret1,
          Event.mutex_unlock relayd.net_seq_idx]
        if ret1 < 0 then recv_cmd_end ctx data tr script
        else
          recv_add_stream_hook ctx data
            { new_stream with relayd_stream_id := env.relayd_stream_id } tr script
      | none =>
        if msg.stream_net_index ≠ -1 then
          -- lines 376-380
          recv_cmd_end ctx data (pre ++ [Event.free_stream new_stream.key]) script
        else recv_add_stream_hook ctx data new_stream pre script

/-- The function `lttng_ustconsumer_recv_cmd`, lines 198-437.  `script`
answers the `write` calls on the wake-up pipe. -/
def lttng_ustconsumer_recv_cmd (ctx : lttng_consumer_local_data) (env : RecvEnv)
    (data : lttng_consumer_global_data) (script : List SysRes) : Option RecvResult :=
  let ret := env.recv_ret
  if ret ≠ (env.sizeof_msg : Int) then
    -- lines 205-208
    some ⟨Exit.returned (int_of_long ret), data,
      [Event.send_error SendError.CONSUMERD_ERROR_RECV_FD]⟩
  else if env.msg.cmd_type = lttng_consumer_command.LTTNG_CONSUMER_STOP then
    some ⟨Exit.returned (-ENOENT), data, []⟩
  else
    match env.msg.cmd_type with
    | lttng_consumer_command.LTTNG_CONSUMER_ADD_RELAYD_SOCKET =>
      some (recv_add_relayd_socket env data)
    | lttng_consumer_command.LTTNG_CONSUMER_ADD_CHANNEL =>
      some (recv_add_channel ctx env data)
    | lttng_consumer_command.LTTNG_CONSUMER_ADD_STREAM =>
      recv_add_stream ctx env data script
    | lttng_consumer_command.LTTNG_CONSUMER_UPDATE_STREAM =>
      some ⟨Exit.returned (-ENOSYS), data, []⟩
    | _ => recv_cmd_end ctx data [] script

/-! ## Scripts with interruptions, and further observations -/

/-- An answer that makes the retry loops of the file call again: the call
returned -1 with `errno == EINTR`. -/
def eintr : SysRes := ⟨-1, EINTR⟩

/-- The script `script` with interrupted answers put in: `ks` gives, for each
position in turn, how many `eintr` answers come before the answer at that
position; once `script` is used up the next count goes at the very end. -/
def insert_eintr : List Nat → List SysRes → List SysRes
  | [], script => script
  | k :: _, [] => List.replicate k eintr
  | k :: ks, r :: rest => List.replicate k eintr ++ r :: insert_eintr ks rest

/-- The answers given to the payload `write` calls (line 109) of a trace. -/
def payload_results (tr : List Event) : List Int :=
  tr.filterMap (fun e =>
    match e with
    | Event.write WriteSite.payload _ _ res => some res.ret
    | _ => none)

/-- Sum of the non-negative values of a list. -/
def sum_nonneg : List Int → Int
  | [] => 0
  | x :: t => (if 0 ≤ x then x else 0) + sum_nonneg t

/-- Whether some payload `write` of the trace failed with an error other
than an interruption. -/
def payload_write_failed (tr : List Event) : Bool :=
  tr.any (fun e =>
    match e with
    | Event.write WriteSite.payload _ _ res => decide (res.ret < 0 ∧ res.errno ≠ EINTR)
    | _ => false)

/-- Whether some payload `write` of the trace reported more bytes than the
length of the buffer it was given. -/
def payload_over_reported (tr : List Event) : Bool :=
  tr.any (fun e =>
    match e with
    | Event.write WriteSite.payload _ buf res => decide ((buf.length : Int) < res.ret)
    | _ => false)

/-- Number of `pthread_mutex_lock` calls in a trace. -/
def count_lock (tr : List Event) : Nat :=
  tr.countP (fun e => match e with | Event.mutex_lock _ => true | _ => false)

/-- Number of `pthread_mutex_unlock` calls in a trace. -/
def count_unlock (tr : List Event) : Nat :=
  tr.countP (fun e => match e with | Event.mutex_unlock _ => true | _ => false)

/-- Number of `ustctl_put_next_subbuf` calls in a trace. -/
def count_put (tr : List Event) : Nat :=
  tr.countP (fun e => match e with | Event.put_next_subbuf _ => true | _ => false)

/-- Number of `ustctl_get_next_subbuf` calls in a trace that returned 0. -/
def count_get_ok (tr : List Event) : Nat :=
  tr.countP (fun e => match e with | Event.get_next_subbuf err => decide (err = 0) | _ => false)

/-- The write-back hints of a trace: descriptor, offset and byte count of
each `lttng_sync_file_range` call. -/
def hints (tr : List Event) : List (Int × Int × Int) :=
  tr.filterMap (fun e =>
    match e with
    | Event.sync_file_range fd offset nbytes => some (fd, offset, nbytes)
    | _ => none)

/-- The file ranges the payload writes of a trace filled, for a descriptor
whose file position is `pos` when the trace starts: each `write` that
returned `ret ≥ 0` fills `ret` bytes at the current position and moves the
position forward by `ret`. -/
def written_ranges (pos : Int) : List Event → List (Int × Int × Int)
  | [] => []
  | Event.write WriteSite.payload fd _ res :: t =>
    if 0 ≤ res.ret then (fd, pos, res.ret) :: written_ranges (pos + res.ret) t
    else written_ranges pos t
  | _ :: t => written_ranges pos t

/-- The answers given to the `write` calls on the wake-up pipe, with the
descriptor and the buffer of each call. -/
def wakeup_writes (tr : List Event) : List (Int × List Nat × SysRes) :=
  tr.filterMap (fun e =>
    match e with
    | Event.write WriteSite.wakeup fd buf res => some (fd, buf, res)
    | _ => none)

/-- Whether an answer is an interruption in the sense of the `write` retry
loops: `ret < 0 && errno == EINTR`. -/
def interrupted (r : SysRes) : Bool := decide (r.ret < 0 ∧ r.errno = EINTR)

/-- Whether `relayd_add_stream` is called in a trace. -/
def calls_relayd_add_stream (tr : List Event) : Bool :=
  tr.any (fun e => match e with | Event.relayd_add_stream _ _ => true | _ => false)

/-- Whether the hook `on_recv_stream` is called in a trace. -/
def calls_on_recv_stream (tr : List Event) : Bool :=
  tr.any (fun e => match e with | Event.on_recv_stream _ _ => true | _ => false)

/-- The trace without the `read` calls on the wait descriptor. -/
def without_reads (tr : List Event) : List Event :=
  tr.filter (fun e => match e with | Event.read_wait_fd _ _ => false | _ => true)

/-- What a caller and the sink can observe of a transfer: the returned
value, the bytes emitted, and the final `out_fd_offset`. -/
def MmapResult.observed (r : MmapResult) : Int × List Nat × Int :=
  (r.ret, emitted r.trace, r.stream.out_fd_offset)

/-- What can be observed of a drain cycle apart from the `read` calls: how
it ends, the final `out_fd_offset`, and every other action. -/
def ReadResult.observed (r : ReadResult) : Exit × Int × List Event :=
  (r.exit, r.stream.out_fd_offset, without_reads r.trace)

/-! ## Concrete inputs -/

/-- A data stream writing to the local file descriptor 7; the mapped region
holds the bytes 0, 1, 2, ... -/
def ex_stream_local : lttng_consumer_stream :=
  { key := 1, chan_key := 1, shm_fd := -1, wait_fd := 4, state := 0, mmap_len := 4096,
    output := lttng_event_output.LTTNG_EVENT_MMAP, path_name := [116], uid := 0, gid := 0,
    net_seq_idx := -1, metadata_flag := false, relayd_stream_id := 0, out_fd := 7,
    out_fd_offset := 0, hangup_flush_done := false, mmap_base := fun i => i % 256 }

/-- The metadata stream of relay peer 3, with relay stream id
`0x0102030405060708`. -/
def ex_stream_metadata : lttng_consumer_stream :=
  { ex_stream_local with
    key := 2, net_seq_idx := 3, metadata_flag := true,
    relayd_stream_id := 72623859790382856 }

/-- A data stream of relay peer 3. -/
def ex_stream_relay : lttng_consumer_stream :=
  { ex_stream_local with key := 3, net_seq_idx := 3 }

/-- Registries holding the relay peer 3 only. -/
def ex_data_relay : lttng_consumer_global_data :=
  ⟨[], [], [⟨3, ⟨10, 0⟩, ⟨11, 0⟩⟩]⟩

/-- Empty registries. -/
def ex_data_empty : lttng_consumer_global_data := ⟨[], [], []⟩

/-- The read-offset query succeeds with offset 0; the relay data descriptor
resolves to 11. -/
def ex_env : MmapEnv := ⟨0, 0, 11⟩

/-- The read-offset query fails with `-EINVAL`. -/
def ex_env_offset_fails : MmapEnv := ⟨-22, 0, 11⟩

/-- A `write` that fails for good: -1 with `errno == EIO`. -/
def write_eio : SysRes := ⟨-1, 5⟩

/-- A drain cycle in which the adapter hands out a sub-buffer of 4 bytes and
takes it back. -/
def ex_read_env : ReadEnv := ⟨0, 0, 4, 0⟩

/-- The dispatcher `lttng_consumer_on_read_subbuffer_mmap` of a UST consumer
with empty registries, whose sink accepts 4 bytes at once. -/
def ex_transfer (stream : lttng_consumer_stream) (len : Nat) : Option MmapResult :=
  lttng_ustconsumer_on_read_subbuffer_mmap ex_data_empty ex_env stream len [⟨4, 0⟩]

/-- A command dispatcher context without hooks; the wake-up pipe is
descriptor 6. -/
def ex_ctx : lttng_consumer_local_data := ⟨none, none, 6⟩

/-- An ADD_STREAM message for a data stream with key 9 that targets relay
peer 5, in mmap output mode. -/
def ex_msg_add_stream : lttcomm_consumer_msg :=
  { cmd_type := lttng_consumer_command.LTTNG_CONSUMER_ADD_STREAM,
    relayd_net_index := 0, relayd_type := lttng_stream_type.LTTNG_STREAM_CONTROL,
    relayd_sock := ⟨-1, 0⟩, channel_key := 1, channel_mmap_len := 4096,
    channel_max_sb_size := 4096, stream_key := 9, stream_state := 0, stream_mmap_len := 4096,
    stream_output := lttng_event_output.LTTNG_EVENT_MMAP, stream_name := [115],
    stream_path_name := [116], stream_uid := 0, stream_gid := 0, stream_net_index := 5,
    stream_metadata_flag := false }

/-- The message `ex_msg_add_stream` read whole (its size taken to be 128
bytes), every external call succeeding, two descriptors 20 and 21
received. -/
def ex_recv_env : RecvEnv :=
  { sizeof_msg := 128, recv_ret := 128, msg := ex_msg_add_stream, allocate_relayd_ok := true,
    poll_socket_ret := 0, recv_fds_ret := 8, fds0 := 20, fds1 := 21, create_sock_ret := 0,
    create_sock_fd := 30, allocate_channel_ok := true, allocate_stream_ok := true,
    relayd_add_stream_ret := 0, relayd_stream_id := 77 }

/-- An ADD_CHANNEL message read whole, its descriptor received. -/
def ex_recv_env_channel : RecvEnv :=
  { ex_recv_env with
    msg := { ex_msg_add_stream with
      cmd_type := lttng_consumer_command.LTTNG_CONSUMER_ADD_CHANNEL }
    recv_fds_ret := 4 }

/-- An ADD_RELAYD_SOCKET message (control socket of peer 5) read whole, its
descriptor received. -/
def ex_recv_env_relayd : RecvEnv :=
  { ex_recv_env with
    msg := { ex_msg_add_stream with
      cmd_type := lttng_consumer_command.LTTNG_CONSUMER_ADD_RELAYD_SOCKET
      relayd_net_index := 5 }
    recv_fds_ret := 4 }

/-- An UPDATE_STREAM message read whole. -/
def ex_recv_env_update : RecvEnv :=
  { ex_recv_env with
    msg := { ex_msg_add_stream with
      cmd_type := lttng_consumer_command.LTTNG_CONSUMER_UPDATE_STREAM } }

/-- The peer closed the command socket: the receive returns 0. -/
def ex_recv_env_closed : RecvEnv := { ex_recv_env with recv_ret := 0 }

/-- A short read of 10 bytes of the 128 of a message. -/
def ex_recv_env_short : RecvEnv := { ex_recv_env with recv_ret := 10 }

/-- The ADD_STREAM message in splice output mode. -/
def ex_recv_env_splice : RecvEnv :=
  { ex_recv_env with
    msg := { ex_msg_add_stream with
      stream_output := lttng_event_output.LTTNG_EVENT_SPLICE } }

/-- A drain cycle in which the adapter has no sub-buffer ready:
`ustctl_get_next_subbuf` returns `-EAGAIN`, that is -11. -/
def ex_read_env_no_subbuf : ReadEnv := ⟨-11, 0, 4, 0⟩

/-! ## Unfolding lemmas -/

theorem mmap_write_loop_zero (relayd : Bool) (outfd orig_offset : Int)
    (stream : lttng_consumer_stream) (mmap_offset : Nat) (written : Int)
    (script : List SysRes) :
    mmap_write_loop relayd outfd orig_offset stream 0 mmap_offset written script =
      some ⟨written, stream, [Event.sync_trace_file orig_offset]⟩ := by
  unfold mmap_write_loop
  simp

theorem mmap_write_loop_nil (relayd : Bool) (outfd orig_offset : Int)
    (stream : lttng_consumer_stream) (len mmap_offset : Nat) (written : Int)
    (hlen : len ≠ 0) :
    mmap_write_loop relayd outfd orig_offset stream len mmap_offset written [] = none := by
  unfold mmap_write_loop
  simp [hlen]

theorem mmap_write_loop_cons (relayd : Bool) (outfd orig_offset : Int)
    (stream : lttng_consumer_stream) (len mmap_offset : Nat) (written : Int)
    (r : SysRes) (rest : List SysRes) (hlen : len ≠ 0) :
    mmap_write_loop relayd outfd orig_offset stream len mmap_offset written (r :: rest) =
      (if r.ret < 0 ∧ r.errno = EINTR then
        (mmap_write_loop relayd outfd orig_offset stream len mmap_offset written rest).map
          (MmapResult.after
            [Event.write WriteSite.payload outfd (mmap_buf stream mmap_offset len) r])
      else if r.ret < 0 then
        some ⟨if written = 0 then r.ret else written, stream,
          [Event.write WriteSite.payload outfd (mmap_buf stream mmap_offset len) r]⟩
      else if r.ret > (len : Int) then
        some ⟨written + r.ret, stream,
          [Event.write WriteSite.payload outfd (mmap_buf stream mmap_offset len) r]⟩
      else if relayd then
        (mmap_write_loop relayd outfd orig_offset stream (len - r.ret.toNat)
          ((mmap_offset + r.ret.toNat) % 2 ^ 64) (written + r.ret) rest).map
          (MmapResult.after
            [Event.write WriteSite.payload outfd (mmap_buf stream mmap_offset len) r])
      else
        (mmap_write_loop relayd outfd orig_offset
          { stream with out_fd_offset := stream.out_fd_offset + r.ret } (len - r.ret.toNat)
          ((mmap_offset + r.ret.toNat) % 2 ^ 64) (written + r.ret) rest).map
          (MmapResult.after
            [Event.write WriteSite.payload outfd (mmap_buf stream mmap_offset len) r,
             Event.sync_file_range outfd stream.out_fd_offset r.ret])) := by
  rw [mmap_write_loop]
  simp only [hlen, if_false]

/-! ## The value returned by the mmap transfer -/

theorem payload_write_failed_append (a b : List Event) :
    payload_write_failed (a ++ b) = (payload_write_failed a || payload_write_failed b) := by
  simp [payload_write_failed, List.any_append]

theorem payload_over_reported_append (a b : List Event) :
    payload_over_reported (a ++ b) =
      (payload_over_reported a || payload_over_reported b) := by
  simp [payload_over_reported, List.any_append]

theorem mmap_buf_length (stream : lttng_consumer_stream) (mmap_offset len : Nat) :
    (mmap_buf stream mmap_offset len).length = len := by
  simp [mmap_buf]

/-- The four ways the payload loop can end, in terms of the value returned:
all `len` bytes counted; a failure before any byte was counted; a failure
after some bytes were counted; a write that reported too much. -/
theorem mmap_write_loop_ret (relayd : Bool) (outfd orig_offset : Int) :
    ∀ (script : List SysRes) (stream : lttng_consumer_stream) (len mmap_offset : Nat)
      (written : Int) (r : MmapResult), 0 ≤ written →
      mmap_write_loop relayd outfd orig_offset stream len mmap_offset written script = some r →
      r.ret = written + len ∨ r.ret < 0 ∨
      (0 < r.ret ∧ r.ret < written + len ∧ payload_write_failed r.trace = true) ∨
      (written + len < r.ret ∧ payload_over_reported r.trace = true) := by
  intro script
  induction script with
  | nil =>
    intro stream len mmap_offset written r _ h
    by_cases hlen : len = 0
    · subst hlen
      rw [mmap_write_loop_zero] at h
      cases h
      simp
    · rw [mmap_write_loop_nil _ _ _ _ _ _ _ hlen] at h
      cases h
  | cons a rest ih =>
    intro stream len mmap_offset written r hw h
    by_cases hlen : len = 0
    · subst hlen
      rw [mmap_write_loop_zero] at h
      cases h
      simp
    · rw [mmap_write_loop_cons _ _ _ _ _ _ _ _ _ hlen] at h
      have hpos : (0 : Int) < len := by omega
      split_ifs at h with h1 h2 hw0 h3 h4
      · obtain ⟨x, hx, rfl⟩ := Option.map_eq_some'.mp h
        have := ih _ _ _ _ _ hw hx
        simp only [MmapResult.after, payload_write_failed_append,
          payload_over_reported_append]
        rcases this with h5 | h5 | ⟨h5, h6, h7⟩ | ⟨h5, h6⟩
        · exact Or.inl h5
        · exact Or.inr (Or.inl h5)
        · exact Or.inr (Or.inr (Or.inl ⟨h5, h6, by simp [h7]⟩))
        · exact Or.inr (Or.inr (Or.inr ⟨h5, by simp [h6]⟩))
      · cases h
        exact Or.inr (Or.inl h2)
      · cases h
        have herr : a.errno ≠ EINTR := fun he => h1 ⟨h2, he⟩
        refine Or.inr (Or.inr (Or.inl ⟨?_, ?_, ?_⟩))
        · simp only; omega
        · simp only; omega
        · simp [payload_write_failed, h2, herr]
      · cases h
        refine Or.inr (Or.inr (Or.inr ⟨?_, ?_⟩))
        · simp only; omega
        · simp [payload_over_reported, mmap_buf_length]
          omega
      · obtain ⟨x, hx, rfl⟩ := Option.map_eq_some'.mp h
        have hr0 : 0 ≤ a.ret := by omega
        have hcast : ((len - a.ret.toNat : Nat) : Int) = len - a.ret := by
          have : a.ret.toNat ≤ len := by omega
          omega
        have := ih _ _ _ _ _ (by omega : 0 ≤ written + a.ret) hx
        rw [hcast] at this
        simp only [MmapResult.after, payload_write_failed_append,
          payload_over_reported_append]
        rcases this with h5 | h5 | ⟨h5, h6, h7⟩ | ⟨h5, h6⟩
        · exact Or.inl (by omega)
        · exact Or.inr (Or.inl h5)
        · exact Or.inr (Or.inr (Or.inl ⟨h5, by omega, by simp [h7]⟩))
        · exact Or.inr (Or.inr (Or.inr ⟨by omega, by simp [h6]⟩))
      · obtain ⟨x, hx, rfl⟩ := Option.map_eq_some'.mp h
        have hr0 : 0 ≤ a.ret := by omega
        have hcast : ((len - a.ret.toNat : Nat) : Int) = len - a.ret := by
          have : a.ret.toNat ≤ len := by omega
          omega
        have := ih _ _ _ _ _ (by omega : 0 ≤ written + a.ret) hx
        rw [hcast] at this
        simp only [MmapResult.after, payload_write_failed_append,
          payload_over_reported_append]
        rcases this with h5 | h5 | ⟨h5, h6, h7⟩ | ⟨h5, h6⟩
        · exact Or.inl (by omega)
        · exact Or.inr (Or.inl h5)
        · exact Or.inr (Or.inr (Or.inl ⟨h5, by omega, by simp [h7]⟩))
        · exact Or.inr (Or.inr (Or.inr ⟨by omega, by simp [h6]⟩))

theorem write_retry_returns (script : List SysRes) (fin : SysRes)
    (hfin : ¬ (fin.ret < 0 ∧ fin.errno = EINTR)) :
    ∃ tries r rest, write_retry (script ++ [fin]) = some (tries, r, rest) ∧
      (r = fin ∨ ∃ rest1, rest = rest1 ++ [fin]) := by
  induction script with
  | nil => exact ⟨[], fin, [], by simp [write_retry, hfin], Or.inl rfl⟩
  | cons a rest ih =>
    obtain ⟨tries, r, rest2, hp, hr⟩ := ih
    by_cases ha : a.ret < 0 ∧ a.errno = EINTR
    · exact ⟨a :: tries, r, rest2, by simp [write_retry, ha, hp], hr⟩
    · exact ⟨[], a, rest ++ [fin], by simp [write_retry, ha], Or.inr ⟨rest, rfl⟩⟩

/-- Every script followed by a `write` that fails for good lets the payload
loop end. -/
theorem mmap_write_loop_returns (relayd : Bool) (outfd orig_offset : Int) :
    ∀ (script : List SysRes) (stream : lttng_consumer_stream) (len mmap_offset : Nat)
      (written : Int),
      ∃ r, mmap_write_loop relayd outfd orig_offset stream len mmap_offset written
        (script ++ [write_eio]) = some r := by
  intro script
  induction script with
  | nil =>
    intro stream len mmap_offset written
    by_cases hlen : len = 0
    · subst hlen
      exact ⟨_, mmap_write_loop_zero _ _ _ _ _ _ _⟩
    · rw [List.nil_append, mmap_write_loop_cons _ _ _ _ _ _ _ _ _ hlen]
      simp [write_eio, EINTR]
  | cons a rest ih =>
    intro stream len mmap_offset written
    by_cases hlen : len = 0
    · subst hlen
      exact ⟨_, mmap_write_loop_zero _ _ _ _ _ _ _⟩
    · rw [List.cons_append, mmap_write_loop_cons _ _ _ _ _ _ _ _ _ hlen]
      obtain ⟨x1, hx1⟩ := ih stream len mmap_offset written
      obtain ⟨x2, hx2⟩ := ih stream (len - a.ret.toNat)
        ((mmap_offset + a.ret.toNat) % 2 ^ 64) (written + a.ret)
      obtain ⟨x3, hx3⟩ := ih { stream with out_fd_offset := stream.out_fd_offset + a.ret }
        (len - a.ret.toNat) ((mmap_offset + a.ret.toNat) % 2 ^ 64) (written + a.ret)
      rw [hx1, hx2, hx3]
      split_ifs <;> exact ⟨_, rfl⟩

/-! ## The paths through the mmap transfer -/

@[simp] theorem mmap_end_ret (relayd : Option consumer_relayd_sock_pair) (r : MmapResult) :
    (mmap_end relayd r).ret = r.ret := rfl

@[simp] theorem mmap_end_stream (relayd : Option consumer_relayd_sock_pair)
    (r : MmapResult) : (mmap_end relayd r).stream = r.stream := rfl

@[simp] theorem mmap_end_trace (relayd : Option consumer_relayd_sock_pair)
    (r : MmapResult) :
    (mmap_end relayd r).trace = r.trace ++ unlock_at_end relayd r.stream.metadata_flag := rfl

@[simp] theorem after_ret (evs : List Event) (r : MmapResult) : (r.after evs).ret = r.ret :=
  rfl

@[simp] theorem after_stream (evs : List Event) (r : MmapResult) :
    (r.after evs).stream = r.stream := rfl

@[simp] theorem after_trace (evs : List Event) (r : MmapResult) :
    (r.after evs).trace = evs ++ r.trace := rfl

@[simp] theorem unlock_at_end_none (flag : Bool) : unlock_at_end none flag = [] := rfl

/-- Path 1: the stream targets a relay and the peer is not found. -/
theorem mmap_peer_missing (data : lttng_consumer_global_data) (env : MmapEnv)
    (stream : lttng_consumer_stream) (len : Nat) (script : List SysRes)
    (hnet : stream.net_seq_idx ≠ -1)
    (hfind : consumer_find_relayd data stream.net_seq_idx = none) :
    lttng_ustconsumer_on_read_subbuffer_mmap data env stream len script =
      some (mmap_end none ⟨0, stream, []⟩) := by
  unfold lttng_ustconsumer_on_read_subbuffer_mmap
  simp [hnet, hfind]

/-- Path 2, local file: the read-offset query fails. -/
theorem mmap_local_query_fails (data : lttng_consumer_global_data) (env : MmapEnv)
    (stream : lttng_consumer_stream) (len : Nat) (script : List SysRes)
    (hnet : stream.net_seq_idx = -1) (hret : env.get_mmap_read_offset_ret ≠ 0) :
    lttng_ustconsumer_on_read_subbuffer_mmap data env stream len script =
      some (mmap_end none ⟨env.get_mmap_read_offset_ret, stream,
        [Event.get_mmap_read_offset env.get_mmap_read_offset_ret]⟩) := by
  unfold lttng_ustconsumer_on_read_subbuffer_mmap
  simp [hnet, hret]

/-- Path 2, relay: the read-offset query fails. -/
theorem mmap_relay_query_fails (data : lttng_consumer_global_data) (env : MmapEnv)
    (stream : lttng_consumer_stream) (len : Nat) (script : List SysRes)
    (rl : consumer_relayd_sock_pair) (hnet : stream.net_seq_idx ≠ -1)
    (hfind : consumer_find_relayd data stream.net_seq_idx = some rl)
    (hret : env.get_mmap_read_offset_ret ≠ 0) :
    lttng_ustconsumer_on_read_subbuffer_mmap data env stream len script =
      some (mmap_end (some rl) ⟨env.get_mmap_read_offset_ret, stream,
        [Event.get_mmap_read_offset env.get_mmap_read_offset_ret]⟩) := by
  unfold lttng_ustconsumer_on_read_subbuffer_mmap
  simp [hnet, hfind, hret]

/-- Path 3: local file, the payload loop runs on the stream's descriptor. -/
theorem mmap_local (data : lttng_consumer_global_data) (env : MmapEnv)
    (stream : lttng_consumer_stream) (len : Nat) (script : List SysRes)
    (hnet : stream.net_seq_idx = -1) (hret : env.get_mmap_read_offset_ret = 0) :
    lttng_ustconsumer_on_read_subbuffer_mmap data env stream len script =
      (mmap_write_loop false stream.out_fd stream.out_fd_offset stream len env.mmap_offset 0
        script).map (fun r => mmap_end none (r.after [Event.get_mmap_read_offset 0])) := by
  unfold lttng_ustconsumer_on_read_subbuffer_mmap
  simp [hnet, hret]

/-- Path 4: metadata stream of a relay whose descriptor was resolved: the
stream id is written, then the payload loop runs. -/
theorem mmap_relay_metadata (data : lttng_consumer_global_data) (env : MmapEnv)
    (stream : lttng_consumer_stream) (len : Nat) (script : List SysRes)
    (rl : consumer_relayd_sock_pair) (hnet : stream.net_seq_idx ≠ -1)
    (hfind : consumer_find_relayd data stream.net_seq_idx = some rl)
    (hret : env.get_mmap_read_offset_ret = 0)
    (hfd : 0 ≤ env.handle_stream_before_relayd_ret) (hmeta : stream.metadata_flag = true) :
    lttng_ustconsumer_on_read_subbuffer_mmap data env stream len script =
      match write_retry script with
      | none => none
      | some (tries, r, rest) =>
        if r.ret < 0 then
          some (mmap_end (some rl) ⟨r.ret, stream,
            [Event.get_mmap_read_offset 0, Event.mutex_lock rl.net_seq_idx,
              Event.handle_stream_before_relayd len env.handle_stream_before_relayd_ret] ++
            (tries ++ [r]).map (Event.write WriteSite.metadata_id
              env.handle_stream_before_relayd_ret (htobe64 stream.relayd_stream_id))⟩)
        else
          (mmap_write_loop true env.handle_stream_before_relayd_ret stream.out_fd_offset
            stream len env.mmap_offset 0 rest).map
            (fun x => mmap_end (some rl) (x.after
              ([Event.get_mmap_read_offset 0, Event.mutex_lock rl.net_seq_idx,
                Event.handle_stream_before_relayd len env.handle_stream_before_relayd_ret] ++
              (tries ++ [r]).map (Event.write WriteSite.metadata_id
                env.handle_stream_before_relayd_ret (htobe64 stream.relayd_stream_id))))) := by
  unfold lttng_ustconsumer_on_read_subbuffer_mmap
  simp only [hnet, hfind, hret, hmeta]
  simp [hfd, hnet]

/-- Path 5: stream of a relay that is not a metadata stream with a resolved
descriptor: the payload loop runs, on the resolved descriptor or, when it was
not resolved, on the stream's own. -/
theorem mmap_relay_plain (data : lttng_consumer_global_data) (env : MmapEnv)
    (stream : lttng_consumer_stream) (len : Nat) (script : List SysRes)
    (rl : consumer_relayd_sock_pair) (hnet : stream.net_seq_idx ≠ -1)
    (hfind : consumer_find_relayd data stream.net_seq_idx = some rl)
    (hret : env.get_mmap_read_offset_ret = 0)
    (hplain : ¬ (0 ≤ env.handle_stream_before_relayd_ret ∧ stream.metadata_flag = true)) :
    lttng_ustconsumer_on_read_subbuffer_mmap data env stream len script =
      (mmap_write_loop true
        (if 0 ≤ env.handle_stream_before_relayd_ret then env.handle_stream_before_relayd_ret
          else stream.out_fd)
        stream.out_fd_offset stream len env.mmap_offset 0 script).map
        (fun x => mmap_end (some rl) (x.after
          ([Event.get_mmap_read_offset 0] ++
            (if stream.metadata_flag then [Event.mutex_lock rl.net_seq_idx] else []) ++
            [Event.handle_stream_before_relayd len env.handle_stream_before_relayd_ret]))) := by
  unfold lttng_ustconsumer_on_read_subbuffer_mmap
  simp only [hnet, hfind, hret]
  simp [hplain, hnet]

/-- Every script followed by a `write` that fails for good lets the mmap
transfer return. -/
theorem mmap_returns (data : lttng_consumer_global_data) (env : MmapEnv)
    (stream : lttng_consumer_stream) (len : Nat) (script : List SysRes) :
    ∃ r, lttng_ustconsumer_on_read_subbuffer_mmap data env stream len
      (script ++ [write_eio]) = some r := by
  by_cases hnet : stream.net_seq_idx = -1
  · by_cases hret : env.get_mmap_read_offset_ret = 0
    · rw [mmap_local _ _ _ _ _ hnet hret]
      obtain ⟨x, hx⟩ := mmap_write_loop_returns false stream.out_fd stream.out_fd_offset
        script stream len env.mmap_offset 0
      exact ⟨_, by rw [hx]; rfl⟩
    · exact ⟨_, mmap_local_query_fails _ _ _ _ _ hnet hret⟩
  · cases hfind : consumer_find_relayd data stream.net_seq_idx with
    | none => exact ⟨_, mmap_peer_missing _ _ _ _ _ hnet hfind⟩
    | some rl =>
      by_cases hret : env.get_mmap_read_offset_ret = 0
      · by_cases hmeta : 0 ≤ env.handle_stream_before_relayd_ret ∧ stream.metadata_flag = true
        · rw [mmap_relay_metadata _ _ _ _ _ rl hnet hfind hret hmeta.1 hmeta.2]
          obtain ⟨tries, r, rest, hp, hr⟩ := write_retry_returns script write_eio
            (by simp [write_eio, EINTR])
          rw [hp]
          simp only
          by_cases hneg : r.ret < 0
          · rw [if_pos hneg]
            exact ⟨_, rfl⟩
          · rw [if_neg hneg]
            rcases hr with hr | ⟨rest1, hr⟩
            · exact absurd (by rw [hr]; decide) hneg
            · obtain ⟨x, hx⟩ := mmap_write_loop_returns true
                env.handle_stream_before_relayd_ret stream.out_fd_offset rest1 stream len
                env.mmap_offset 0
              rw [hr, hx]
              exact ⟨_, rfl⟩
        · rw [mmap_relay_plain _ _ _ _ _ rl hnet hfind hret hmeta]
          obtain ⟨x, hx⟩ := mmap_write_loop_returns true
            (if 0 ≤ env.handle_stream_before_relayd_ret then
              env.handle_stream_before_relayd_ret else stream.out_fd)
            stream.out_fd_offset script stream len env.mmap_offset 0
          exact ⟨_, by rw [hx]; rfl⟩
      · exact ⟨_, mmap_relay_query_fails _ _ _ _ _ rl hnet hfind hret⟩

theorem ret_cases_lift (P : Prop) (len : Nat) (x : MmapResult) (pre post : List Event)
    (h : x.ret = (0 : Int) + len ∨ x.ret < 0 ∨
      (0 < x.ret ∧ x.ret < (0 : Int) + len ∧ payload_write_failed x.trace = true) ∨
      ((0 : Int) + len < x.ret ∧ payload_over_reported x.trace = true)) :
    x.ret = len ∨ x.ret < 0 ∨ P ∨
    (0 < x.ret ∧ x.ret < len ∧ payload_write_failed (pre ++ x.trace ++ post) = true) ∨
    ((len : Int) < x.ret ∧ payload_over_reported (pre ++ x.trace ++ post) = true) := by
  simp only [zero_add] at h
  rcases h with h1 | h1 | ⟨h1, h2, h3⟩ | ⟨h1, h2⟩
  · exact Or.inl h1
  · exact Or.inr (Or.inl h1)
  · exact Or.inr (Or.inr (Or.inr (Or.inl
      ⟨h1, h2, by simp [payload_write_failed_append, h3]⟩)))
  · exact Or.inr (Or.inr (Or.inr (Or.inr
      ⟨h1, by simp [payload_over_reported_append, h2]⟩)))

/-- The value returned by the mmap transfer, over all its paths, when the
read-offset query answers 0 or a negative code. -/
theorem mmap_ret_cases (data : lttng_consumer_global_data) (env : MmapEnv)
    (stream : lttng_consumer_stream) (len : Nat) (script : List SysRes) (r : MmapResult)
    (hq : env.get_mmap_read_offset_ret ≤ 0)
    (h : lttng_ustconsumer_on_read_subbuffer_mmap data env stream len script = some r) :
    r.ret = len ∨ r.ret < 0 ∨
    (r.ret = 0 ∧ stream.net_seq_idx ≠ -1 ∧
      consumer_find_relayd data stream.net_seq_idx = none) ∨
    (0 < r.ret ∧ r.ret < len ∧ payload_write_failed r.trace = true) ∨
    ((len : Int) < r.ret ∧ payload_over_reported r.trace = true) := by
  by_cases hnet : stream.net_seq_idx = -1
  · by_cases hret : env.get_mmap_read_offset_ret = 0
    · rw [mmap_local _ _ _ _ _ hnet hret] at h
      obtain ⟨x, hx, rfl⟩ := Option.map_eq_some'.mp h
      simp only [mmap_end_ret, mmap_end_trace, after_ret, after_trace]
      exact ret_cases_lift _ _ _ _ _ (mmap_write_loop_ret _ _ _ _ _ _ _ _ _ (le_refl 0) hx)
    · rw [mmap_local_query_fails _ _ _ _ _ hnet hret] at h
      cases h
      exact Or.inr (Or.inl (by simp only [mmap_end_ret]; omega))
  · cases hfind : consumer_find_relayd data stream.net_seq_idx with
    | none =>
      rw [mmap_peer_missing _ _ _ _ _ hnet hfind] at h
      cases h
      exact Or.inr (Or.inr (Or.inl ⟨rfl, hnet, rfl⟩))
    | some rl =>
      by_cases hret : env.get_mmap_read_offset_ret = 0
      · by_cases hmeta : 0 ≤ env.handle_stream_before_relayd_ret ∧ stream.metadata_flag = true
        · rw [mmap_relay_metadata _ _ _ _ _ rl hnet hfind hret hmeta.1 hmeta.2] at h
          cases hw : write_retry script with
          | none => rw [hw] at h; cases h
          | some p =>
            obtain ⟨tries, a, rest⟩ := p
            rw [hw] at h
            simp only at h
            by_cases hneg : a.ret < 0
            · rw [if_pos hneg] at h
              cases h
              exact Or.inr (Or.inl hneg)
            · rw [if_neg hneg] at h
              obtain ⟨x, hx, rfl⟩ := Option.map_eq_some'.mp h
              simp only [mmap_end_ret, mmap_end_trace, after_ret, after_trace]
              exact ret_cases_lift _ _ _ _ _
                (mmap_write_loop_ret _ _ _ _ _ _ _ _ _ (le_refl 0) hx)
        · rw [mmap_relay_plain _ _ _ _ _ rl hnet hfind hret hmeta] at h
          obtain ⟨x, hx, rfl⟩ := Option.map_eq_some'.mp h
          simp only [mmap_end_ret, mmap_end_trace, after_ret, after_trace]
          exact ret_cases_lift _ _ _ _ _
            (mmap_write_loop_ret _ _ _ _ _ _ _ _ _ (le_refl 0) hx)
      · rw [mmap_relay_query_fails _ _ _ _ _ rl hnet hfind hret] at h
        cases h
        exact Or.inr (Or.inl (by simp only [mmap_end_ret]; omega))

/-! ## The drain cycle -/

theorem count_put_append (a b : List Event) :
    count_put (a ++ b) = count_put a + count_put b := by
  simp [count_put, List.countP_append]

theorem count_get_ok_append (a b : List Event) :
    count_get_ok (a ++ b) = count_get_ok a + count_get_ok b := by
  simp [count_get_ok, List.countP_append]

theorem count_put_reads (fd : Int) (l : List SysRes) :
    count_put (l.map (Event.read_wait_fd fd)) = 0 := by
  induction l with
  | nil => rfl
  | cons a t ih => simp [count_put, List.countP_cons]

theorem count_get_ok_reads (fd : Int) (l : List SysRes) :
    count_get_ok (l.map (Event.read_wait_fd fd)) = 0 := by
  induction l with
  | nil => rfl
  | cons a t ih => simp [count_get_ok, List.countP_cons]

theorem read_retry_returns (reads : List SysRes) (fin : SysRes)
    (hfin : ¬ (fin.ret = -1 ∧ fin.errno = EINTR)) :
    ∃ p, read_retry (reads ++ [fin]) = some p := by
  induction reads with
  | nil => exact ⟨([], fin), by simp [read_retry, hfin]⟩
  | cons a rest ih =>
    obtain ⟨p, hp⟩ := ih
    by_cases ha : a.ret = -1 ∧ a.errno = EINTR
    · exact ⟨(a :: p.1, p.2), by simp [read_retry, ha, hp]⟩
    · exact ⟨([], a), by simp [read_retry, ha]⟩

/-- The ways the part of the cycle after the wait can end: no sub-buffer
obtained; an assertion failing before the transfer; the transfer followed by
the put as last action. -/
theorem read_subbuffer_next_shapes
    (transfer : lttng_consumer_stream → Nat → Option MmapResult) (env : ReadEnv)
    (stream : lttng_consumer_stream) (ret : Int) (res : ReadResult)
    (h : read_subbuffer_next transfer env stream ret = some res) :
    (env.get_next_subbuf_err ≠ 0 ∧
      res.trace = [Event.get_next_subbuf env.get_next_subbuf_err])
    ∨ (env.get_next_subbuf_err = 0 ∧ res.exit = Exit.assert_failed ∧
      (res.trace = [Event.get_next_subbuf 0] ∨
        res.trace = [Event.get_next_subbuf 0,
          Event.get_padded_subbuf_size env.get_padded_subbuf_size_err env.len]))
    ∨ (env.get_next_subbuf_err = 0 ∧ ∃ x, transfer stream env.len = some x ∧
        (res.exit = Exit.returned (int_of_long x.ret) ∨ res.exit = Exit.assert_failed) ∧
        res.trace = [Event.get_next_subbuf 0,
          Event.get_padded_subbuf_size env.get_padded_subbuf_size_err env.len] ++ x.trace ++
          [Event.put_next_subbuf env.put_next_subbuf_err]) := by
  unfold read_subbuffer_next at h
  simp only at h
  by_cases h0 : env.get_next_subbuf_err = 0
  · rw [if_neg (by simpa using h0)] at h
    by_cases h1 : stream.output = lttng_event_output.LTTNG_EVENT_MMAP
    · rw [if_neg (by simpa using h1)] at h
      by_cases h2 : env.get_padded_subbuf_size_err = 0
      · rw [if_neg (by simpa using h2)] at h
        cases hx : transfer stream env.len with
        | none => rw [hx] at h; cases h
        | some x =>
          rw [hx] at h
          simp only at h
          by_cases h3 : env.put_next_subbuf_err = 0
          · rw [if_neg (by simpa using h3)] at h
            cases h
            exact Or.inr (Or.inr ⟨h0, x, rfl, Or.inl rfl, by rw [h0]⟩)
          · rw [if_pos h3] at h
            cases h
            exact Or.inr (Or.inr ⟨h0, x, rfl, Or.inr rfl, by rw [h0]⟩)
      · rw [if_pos h2] at h
        cases h
        exact Or.inr (Or.inl ⟨h0, rfl, Or.inr (by rw [h0])⟩)
    · rw [if_pos h1] at h
      cases h
      exact Or.inr (Or.inl ⟨h0, rfl, Or.inl (by rw [h0])⟩)
  · rw [if_pos h0] at h
    cases h
    exact Or.inl ⟨h0, rfl⟩

/-- The part of the cycle after the wait returns when the asserted
conditions hold and the transfer returns. -/
theorem read_subbuffer_next_returns
    (transfer : lttng_consumer_stream → Nat → Option MmapResult) (env : ReadEnv)
    (stream : lttng_consumer_stream) (ret : Int)
    (hout : stream.output = lttng_event_output.LTTNG_EVENT_MMAP)
    (hpad : env.get_padded_subbuf_size_err = 0) (hput : env.put_next_subbuf_err = 0)
    (hx : ∃ x, transfer stream env.len = some x) :
    ∃ res v, read_subbuffer_next transfer env stream ret = some res ∧
      res.exit = Exit.returned v := by
  obtain ⟨x, hx⟩ := hx
  unfold read_subbuffer_next
  simp only [hout, hpad, hput, hx]
  by_cases h0 : env.get_next_subbuf_err = 0
  · simp [h0]
  · simp [h0]

/-- In every run of the drain cycle the sub-buffer is obtained at most once
and put back at most as often as it was obtained; in a run that returns it is
put back exactly as often; and a put is the last action, after the
transfer. -/
theorem read_subbuffer_put
    (transfer : lttng_consumer_stream → Nat → Option MmapResult) (env : ReadEnv)
    (stream : lttng_consumer_stream) (reads : List SysRes)
    (htr : ∀ s n x, transfer s n = some x → count_put x.trace = 0 ∧ count_get_ok x.trace = 0)
    (res : ReadResult)
    (h : lttng_ustconsumer_read_subbuffer transfer env stream reads = some res) :
    count_put res.trace ≤ count_get_ok res.trace ∧ count_get_ok res.trace ≤ 1 ∧
    (∀ v, res.exit = Exit.returned v → count_put res.trace = count_get_ok res.trace) ∧
    (count_put res.trace = 1 → ∃ pre x, transfer stream env.len = some x ∧
      res.trace = pre ++ x.trace ++ [Event.put_next_subbuf env.put_next_subbuf_err] ∧
      count_put pre = 0) := by
  have next : ∀ (evs : List Event) (y : ReadResult), count_put evs = 0 →
      count_get_ok evs = 0 → read_subbuffer_next transfer env stream 0 = some y →
      count_put (evs ++ y.trace) ≤ count_get_ok (evs ++ y.trace) ∧
      count_get_ok (evs ++ y.trace) ≤ 1 ∧
      (∀ v, y.exit = Exit.returned v →
        count_put (evs ++ y.trace) = count_get_ok (evs ++ y.trace)) ∧
      (count_put (evs ++ y.trace) = 1 → ∃ pre x, transfer stream env.len = some x ∧
        evs ++ y.trace = pre ++ x.trace ++ [Event.put_next_subbuf env.put_next_subbuf_err] ∧
        count_put pre = 0) := by
    intro evs y he1 he2 hy
    rcases read_subbuffer_next_shapes transfer env stream 0 y hy with
      ⟨h0, ht⟩ | ⟨h0, hexit, ht⟩ | ⟨h0, x, hx, _, ht⟩
    · have c1 : count_put [Event.get_next_subbuf env.get_next_subbuf_err] = 0 := rfl
      have c2 : count_get_ok [Event.get_next_subbuf env.get_next_subbuf_err] = 0 := by
        simp [count_get_ok, h0]
      rw [ht, count_put_append, count_get_ok_append, he1, he2, c1, c2]
      exact ⟨le_refl _, by decide, fun _ _ => rfl, fun h01 => absurd h01 (by decide)⟩
    · have e1 : count_put (evs ++ y.trace) = 0 := by
        rcases ht with ht | ht <;> rw [ht, count_put_append, he1] <;> rfl
      have e2 : count_get_ok (evs ++ y.trace) = 1 := by
        rcases ht with ht | ht <;> rw [ht, count_get_ok_append, he2] <;> rfl
      rw [e1, e2]
      refine ⟨by decide, le_refl _, ?_, fun h01 => absurd h01 (by decide)⟩
      intro v hv
      rw [hexit] at hv
      cases hv
    · obtain ⟨hp, hg⟩ := htr _ _ _ hx
      have c1 : count_put [Event.get_next_subbuf 0,
          Event.get_padded_subbuf_size env.get_padded_subbuf_size_err env.len] = 0 := rfl
      have c2 : count_get_ok [Event.get_next_subbuf 0,
          Event.get_padded_subbuf_size env.get_padded_subbuf_size_err env.len] = 1 := rfl
      have c3 : count_put [Event.put_next_subbuf env.put_next_subbuf_err] = 1 := rfl
      have c4 : count_get_ok [Event.put_next_subbuf env.put_next_subbuf_err] = 0 := rfl
      have e1 : count_put (evs ++ y.trace) = 1 := by
        rw [ht]
        simp only [count_put_append, he1, hp, c1, c3]
      have e2 : count_get_ok (evs ++ y.trace) = 1 := by
        rw [ht]
        simp only [count_get_ok_append, he2, hg, c2, c4]
      refine ⟨by rw [e1, e2], by rw [e2], fun _ _ => by rw [e1, e2], ?_⟩
      intro _
      refine ⟨evs ++ [Event.get_next_subbuf 0,
        Event.get_padded_subbuf_size env.get_padded_subbuf_size_err env.len], x, hx, ?_, ?_⟩
      · rw [ht]
        simp
      · rw [count_put_append, he1, c1]
  unfold lttng_ustconsumer_read_subbuffer at h
  simp only at h
  by_cases hh : stream.hangup_flush_done = true
  · rw [if_neg (by simpa using hh)] at h
    simpa using next [] res rfl rfl h
  · rw [if_pos (by simpa using hh)] at h
    cases hr : read_retry reads with
    | none => rw [hr] at h; cases h
    | some p =>
      obtain ⟨tries, r⟩ := p
      rw [hr] at h
      simp only at h
      by_cases hm : r.ret = -1
      · rw [if_pos hm] at h
        cases h
        rw [count_put_reads, count_get_ok_reads]
        exact ⟨le_refl _, Nat.zero_le 1, fun _ _ => rfl, fun h01 => absurd h01 (by decide)⟩
      · rw [if_neg hm] at h
        obtain ⟨y, hy, rfl⟩ := Option.map_eq_some'.mp h
        exact next _ y (count_put_reads _ _) (count_get_ok_reads _ _) hy

/-- The drain cycle returns when the asserted conditions hold, the transfer
returns, and the wait on the descriptor is not interrupted for ever. -/
theorem read_subbuffer_returns
    (transfer : lttng_consumer_stream → Nat → Option MmapResult) (env : ReadEnv)
    (stream : lttng_consumer_stream) (reads : List SysRes) (fin : SysRes)
    (hfin : ¬ (fin.ret = -1 ∧ fin.errno = EINTR))
    (hout : stream.output = lttng_event_output.LTTNG_EVENT_MMAP)
    (hpad : env.get_padded_subbuf_size_err = 0) (hput : env.put_next_subbuf_err = 0)
    (hx : ∃ x, transfer stream env.len = some x) :
    ∃ res v, lttng_ustconsumer_read_subbuffer transfer env stream (reads ++ [fin]) =
      some res ∧ res.exit = Exit.returned v := by
  obtain ⟨y, w, hy, hw⟩ := read_subbuffer_next_returns transfer env stream 0 hout hpad hput hx
  unfold lttng_ustconsumer_read_subbuffer
  simp only
  by_cases hh : stream.hangup_flush_done = true
  · rw [if_neg (by simpa using hh)]
    exact ⟨y, w, hy, hw⟩
  · rw [if_pos (by simpa using hh)]
    obtain ⟨p, hp⟩ := read_retry_returns reads fin hfin
    rw [hp]
    simp only
    by_cases hm : p.2.ret = -1
    · rw [if_pos hm]
      exact ⟨_, _, rfl, rfl⟩
    · rw [if_neg hm, hy]
      exact ⟨_, w, rfl, hw⟩

theorem count_put_writes (site : WriteSite) (fd : Int) (buf : List Nat) (l : List SysRes) :
    count_put (l.map (Event.write site fd buf)) = 0 := by
  induction l with
  | nil => rfl
  | cons a t ih => simp [count_put, List.countP_cons]

theorem count_get_ok_writes (site : WriteSite) (fd : Int) (buf : List Nat)
    (l : List SysRes) : count_get_ok (l.map (Event.write site fd buf)) = 0 := by
  induction l with
  | nil => rfl
  | cons a t ih => simp [count_get_ok, List.countP_cons]

theorem count_put_unlock_at_end (relayd : Option consumer_relayd_sock_pair) (flag : Bool) :
    count_put (unlock_at_end relayd flag) = 0 := by
  cases relayd <;> cases flag <;> rfl

theorem count_get_ok_unlock_at_end (relayd : Option consumer_relayd_sock_pair)
    (flag : Bool) : count_get_ok (unlock_at_end relayd flag) = 0 := by
  cases relayd <;> cases flag <;> rfl

/-- The payload loop does not call the ring-buffer adapter. -/
theorem mmap_write_loop_no_ring (relayd : Bool) (outfd orig_offset : Int) :
    ∀ (script : List SysRes) (stream : lttng_consumer_stream) (len mmap_offset : Nat)
      (written : Int) (r : MmapResult),
      mmap_write_loop relayd outfd orig_offset stream len mmap_offset written script = some r →
      count_put r.trace = 0 ∧ count_get_ok r.trace = 0 := by
  intro script
  induction script with
  | nil =>
    intro stream len mmap_offset written r h
    by_cases hlen : len = 0
    · subst hlen
      rw [mmap_write_loop_zero] at h
      cases h
      exact ⟨rfl, rfl⟩
    · rw [mmap_write_loop_nil _ _ _ _ _ _ _ hlen] at h
      cases h
  | cons a rest ih =>
    intro stream len mmap_offset written r h
    by_cases hlen : len = 0
    · subst hlen
      rw [mmap_write_loop_zero] at h
      cases h
      exact ⟨rfl, rfl⟩
    · rw [mmap_write_loop_cons _ _ _ _ _ _ _ _ _ hlen] at h
      split_ifs at h
      all_goals first
        | (cases h; exact ⟨rfl, rfl⟩)
        | (obtain ⟨x, hx, rfl⟩ := Option.map_eq_some'.mp h
           obtain ⟨h1, h2⟩ := ih _ _ _ _ _ hx
           simp only [after_trace, count_put_append, count_get_ok_append, h1, h2]
           exact ⟨rfl, rfl⟩)

/-- The mmap transfer does not call the ring-buffer adapter. -/
theorem mmap_no_ring (data : lttng_consumer_global_data) (env : MmapEnv)
    (stream : lttng_consumer_stream) (len : Nat) (script : List SysRes) (r : MmapResult)
    (h : lttng_ustconsumer_on_read_subbuffer_mmap data env stream len script = some r) :
    count_put r.trace = 0 ∧ count_get_ok r.trace = 0 := by
  by_cases hnet : stream.net_seq_idx = -1
  · by_cases hret : env.get_mmap_read_offset_ret = 0
    · rw [mmap_local _ _ _ _ _ hnet hret] at h
      obtain ⟨x, hx, rfl⟩ := Option.map_eq_some'.mp h
      obtain ⟨h1, h2⟩ := mmap_write_loop_no_ring _ _ _ _ _ _ _ _ _ hx
      simp only [mmap_end_trace, after_trace, count_put_append, count_get_ok_append, h1, h2,
        count_put_unlock_at_end, count_get_ok_unlock_at_end]
      exact ⟨rfl, rfl⟩
    · rw [mmap_local_query_fails _ _ _ _ _ hnet hret] at h
      cases h
      exact ⟨rfl, rfl⟩
  · cases hfind : consumer_find_relayd data stream.net_seq_idx with
    | none =>
      rw [mmap_peer_missing _ _ _ _ _ hnet hfind] at h
      cases h
      exact ⟨rfl, rfl⟩
    | some rl =>
      by_cases hret : env.get_mmap_read_offset_ret = 0
      · by_cases hmeta : 0 ≤ env.handle_stream_before_relayd_ret ∧ stream.metadata_flag = true
        · rw [mmap_relay_metadata _ _ _ _ _ rl hnet hfind hret hmeta.1 hmeta.2] at h
          cases hw : write_retry script with
          | none => rw [hw] at h; cases h
          | some p =>
            obtain ⟨tries, a, rest⟩ := p
            rw [hw] at h
            simp only at h
            by_cases hneg : a.ret < 0
            · rw [if_pos hneg] at h
              cases h
              simp only [mmap_end_trace, count_put_append, count_get_ok_append,
                count_put_writes, count_get_ok_writes, count_put_unlock_at_end,
                count_get_ok_unlock_at_end]
              exact ⟨rfl, rfl⟩
            · rw [if_neg hneg] at h
              obtain ⟨x, hx, rfl⟩ := Option.map_eq_some'.mp h
              obtain ⟨h1, h2⟩ := mmap_write_loop_no_ring _ _ _ _ _ _ _ _ _ hx
              simp only [mmap_end_trace, after_trace, count_put_append, count_get_ok_append,
                h1, h2, count_put_writes, count_get_ok_writes, count_put_unlock_at_end,
                count_get_ok_unlock_at_end]
              exact ⟨rfl, rfl⟩
        · rw [mmap_relay_plain _ _ _ _ _ rl hnet hfind hret hmeta] at h
          obtain ⟨x, hx, rfl⟩ := Option.map_eq_some'.mp h
          obtain ⟨h1, h2⟩ := mmap_write_loop_no_ring _ _ _ _ _ _ _ _ _ hx
          simp only [mmap_end_trace, after_trace, count_put_append, count_get_ok_append,
            h1, h2, count_put_unlock_at_end, count_get_ok_unlock_at_end]
          cases stream.metadata_flag <;> exact ⟨rfl, rfl⟩
      · rw [mmap_relay_query_fails _ _ _ _ _ rl hnet hfind hret] at h
        cases h
        simp only [mmap_end_trace, count_put_append, count_get_ok_append,
          count_put_unlock_at_end, count_get_ok_unlock_at_end]
        exact ⟨rfl, rfl⟩

/-! ## Interrupted system calls -/

theorem emitted_append (a b : List Event) : emitted (a ++ b) = emitted a ++ emitted b := by
  induction a with
  | nil => rfl
  | cons e t ih => simp [emitted, ih]

theorem emitted_unlock_at_end (relayd : Option consumer_relayd_sock_pair) (flag : Bool) :
    emitted (unlock_at_end relayd flag) = [] := by
  cases relayd <;> cases flag <;> rfl

theorem emitted_failed_writes (site : WriteSite) (fd : Int) (buf : List Nat)
    (l : List SysRes) (hl : ∀ t ∈ l, t.ret < 0) :
    emitted (l.map (Event.write site fd buf)) = [] := by
  induction l with
  | nil => rfl
  | cons a t ih =>
    have ha : a.ret.toNat = 0 := by
      have := hl a (List.mem_cons_self a t)
      omega
    have ht := ih (fun x hx => hl x (List.mem_cons_of_mem a hx))
    cases site <;> simp [emitted, Event.accepted, ha, ht]

theorem emitted_id_writes (pre : List Event) (hpre : emitted pre = []) (fd : Int)
    (buf : List Nat) (tries : List SysRes) (r : SysRes) (h : ∀ t ∈ tries, t.ret < 0) :
    emitted (pre ++ (tries ++ [r]).map (Event.write WriteSite.metadata_id fd buf)) =
      buf.take r.ret.toNat := by
  rw [emitted_append, hpre, List.map_append, emitted_append,
    emitted_failed_writes WriteSite.metadata_id fd buf tries h]
  simp [emitted, Event.accepted]

theorem observed_after (evs : List Event) (o : Option MmapResult) :
    (o.map (MmapResult.after evs)).map MmapResult.observed =
      (o.map MmapResult.observed).map (fun t => (t.1, emitted evs ++ t.2.1, t.2.2)) := by
  cases o with
  | none => rfl
  | some x => simp [MmapResult.observed, emitted_append]

theorem observed_end_after (relayd : Option consumer_relayd_sock_pair) (evs : List Event)
    (o : Option MmapResult) :
    (o.map (fun x => mmap_end relayd (x.after evs))).map MmapResult.observed =
      (o.map MmapResult.observed).map (fun t => (t.1, emitted evs ++ t.2.1, t.2.2)) := by
  cases o with
  | none => rfl
  | some x => simp [MmapResult.observed, emitted_append, emitted_unlock_at_end]

/-- Interrupted answers at the head of the script change nothing that can be
observed of the payload loop. -/
theorem mmap_write_loop_skip (relayd : Bool) (outfd orig_offset : Int)
    (stream : lttng_consumer_stream) (len mmap_offset : Nat) (written : Int)
    (script : List SysRes) (k : Nat) :
    (mmap_write_loop relayd outfd orig_offset stream len mmap_offset written
      (List.replicate k eintr ++ script)).map MmapResult.observed =
    (mmap_write_loop relayd outfd orig_offset stream len mmap_offset written script).map
      MmapResult.observed := by
  by_cases hlen : len = 0
  · subst hlen
    simp only [mmap_write_loop_zero]
  · induction k with
    | zero => rfl
    | succ n ih =>
      rw [List.replicate_succ, List.cons_append, mmap_write_loop_cons _ _ _ _ _ _ _ _ _ hlen,
        if_pos (by decide : eintr.ret < 0 ∧ eintr.errno = EINTR), observed_after, ih]
      cases mmap_write_loop relayd outfd orig_offset stream len mmap_offset written script with
      | none => rfl
      | some x => simp [emitted, Event.accepted, eintr]

/-- Interrupted answers put anywhere in the script change nothing that can be
observed of the payload loop. -/
theorem mmap_write_loop_insert_eintr (relayd : Bool) (outfd orig_offset : Int) :
    ∀ (script : List SysRes) (ks : List Nat) (stream : lttng_consumer_stream)
      (len mmap_offset : Nat) (written : Int),
    (mmap_write_loop relayd outfd orig_offset stream len mmap_offset written
      (insert_eintr ks script)).map MmapResult.observed =
    (mmap_write_loop relayd outfd orig_offset stream len mmap_offset written script).map
      MmapResult.observed := by
  intro script
  induction script with
  | nil =>
    intro ks stream len mmap_offset written
    cases ks with
    | nil => rfl
    | cons k ks1 =>
      have := mmap_write_loop_skip relayd outfd orig_offset stream len mmap_offset written [] k
      simpa [insert_eintr] using this
  | cons a rest ih =>
    intro ks stream len mmap_offset written
    cases ks with
    | nil => rfl
    | cons k ks1 =>
      rw [insert_eintr, mmap_write_loop_skip]
      by_cases hlen : len = 0
      · subst hlen
        simp only [mmap_write_loop_zero]
      · rw [mmap_write_loop_cons _ _ _ _ _ _ _ _ _ hlen,
          mmap_write_loop_cons _ _ _ _ _ _ _ _ _ hlen]
        split_ifs
        all_goals first
          | rfl
          | (rw [observed_after, observed_after, ih])

theorem write_retry_skip (script : List SysRes) (k : Nat) :
    write_retry (List.replicate k eintr ++ script) =
      (write_retry script).map (fun p => (List.replicate k eintr ++ p.1, p.2.1, p.2.2)) := by
  induction k with
  | zero => cases h : write_retry script <;> simp [h]
  | succ n ih =>
    rw [List.replicate_succ, List.cons_append, write_retry,
      if_pos (by decide : eintr.ret < 0 ∧ eintr.errno = EINTR), ih]
    cases write_retry script <;> rfl

/-- The retry loop on a script with interrupted answers put in ends on the
same answer as on the script itself, with a rest of the script that is the
former rest with interrupted answers put in; every attempt before the last
one returned a negative value. -/
theorem write_retry_insert_eintr :
    ∀ (script : List SysRes) (ks : List Nat),
    (write_retry script = none ∧ write_retry (insert_eintr ks script) = none) ∨
    (∃ tries r rest tries1 ks1, write_retry script = some (tries, r, rest) ∧
      write_retry (insert_eintr ks script) = some (tries1, r, insert_eintr ks1 rest) ∧
      (∀ t ∈ tries, t.ret < 0) ∧ (∀ t ∈ tries1, t.ret < 0)) := by
  intro script
  induction script with
  | nil =>
    intro ks
    left
    cases ks with
    | nil => exact ⟨rfl, rfl⟩
    | cons k ks1 =>
      have := write_retry_skip [] k
      simp only [List.append_nil] at this
      exact ⟨rfl, by rw [insert_eintr, this]; rfl⟩
  | cons a rest ih =>
    have plain : ∀ ks0 : List Nat,
        (write_retry (a :: rest) = none ∧
          write_retry (a :: insert_eintr ks0 rest) = none) ∨
        (∃ tries r rest2 tries1 ks1, write_retry (a :: rest) = some (tries, r, rest2) ∧
          write_retry (a :: insert_eintr ks0 rest) =
            some (tries1, r, insert_eintr ks1 rest2) ∧
          (∀ t ∈ tries, t.ret < 0) ∧ (∀ t ∈ tries1, t.ret < 0)) := by
      intro ks0
      by_cases ha : a.ret < 0 ∧ a.errno = EINTR
      · rcases ih ks0 with ⟨h1, h2⟩ | ⟨tries, r, rest2, tries1, ks1, h1, h2, h3, h4⟩
        · left
          simp [write_retry, ha, h1, h2]
        · right
          refine ⟨a :: tries, r, rest2, a :: tries1, ks1, by simp [write_retry, ha, h1],
            by simp [write_retry, ha, h2], ?_, ?_⟩
          · intro t ht
            rcases List.mem_cons.mp ht with rfl | ht
            · exact ha.1
            · exact h3 t ht
          · intro t ht
            rcases List.mem_cons.mp ht with rfl | ht
            · exact ha.1
            · exact h4 t ht
      · right
        exact ⟨[], a, rest, [], ks0, by simp [write_retry, ha], by simp [write_retry, ha],
          by simp, by simp⟩
    intro ks
    cases ks with
    | nil =>
      have := plain []
      simpa [insert_eintr] using this
    | cons k ks0 =>
      rw [insert_eintr, write_retry_skip]
      rcases plain ks0 with ⟨h1, h2⟩ | ⟨tries, r, rest2, tries1, ks1, h1, h2, h3, h4⟩
      · left
        exact ⟨h1, by rw [h2]; rfl⟩
      · right
        refine ⟨tries, r, rest2, List.replicate k eintr ++ tries1, ks1, h1, by rw [h2]; rfl,
          h3, ?_⟩
        intro t ht
        rcases List.mem_append.mp ht with ht | ht
        · rw [List.eq_of_mem_replicate ht]
          decide
        · exact h4 t ht

/-- Interrupted answers put anywhere in the script of `write` answers change
neither the value the mmap transfer returns, nor the bytes it emits, nor the
final `out_fd_offset`. -/
theorem mmap_insert_eintr (data : lttng_consumer_global_data) (env : MmapEnv)
    (stream : lttng_consumer_stream) (len : Nat) (ks : List Nat) (script : List SysRes) :
    (lttng_ustconsumer_on_read_subbuffer_mmap data env stream len
      (insert_eintr ks script)).map MmapResult.observed =
    (lttng_ustconsumer_on_read_subbuffer_mmap data env stream len script).map
      MmapResult.observed := by
  by_cases hnet : stream.net_seq_idx = -1
  · by_cases hret : env.get_mmap_read_offset_ret = 0
    · rw [mmap_local _ _ _ _ _ hnet hret, mmap_local _ _ _ _ _ hnet hret,
        observed_end_after, observed_end_after, mmap_write_loop_insert_eintr]
    · rw [mmap_local_query_fails _ _ _ _ _ hnet hret,
        mmap_local_query_fails _ _ _ _ _ hnet hret]
  · cases hfind : consumer_find_relayd data stream.net_seq_idx with
    | none =>
      rw [mmap_peer_missing _ _ _ _ _ hnet hfind, mmap_peer_missing _ _ _ _ _ hnet hfind]
    | some rl =>
      by_cases hret : env.get_mmap_read_offset_ret = 0
      · by_cases hmeta : 0 ≤ env.handle_stream_before_relayd_ret ∧ stream.metadata_flag = true
        · rw [mmap_relay_metadata _ _ _ _ _ rl hnet hfind hret hmeta.1 hmeta.2,
            mmap_relay_metadata _ _ _ _ _ rl hnet hfind hret hmeta.1 hmeta.2]
          rcases write_retry_insert_eintr script ks with
            ⟨h1, h2⟩ | ⟨tries, r, rest, tries1, ks1, h1, h2, h3, h4⟩
          · rw [h1, h2]
          · rw [h1, h2]
            simp only
            have e1 := emitted_id_writes [Event.get_mmap_read_offset 0,
              Event.mutex_lock rl.net_seq_idx,
              Event.handle_stream_before_relayd len env.handle_stream_before_relayd_ret] rfl
              env.handle_stream_before_relayd_ret (htobe64 stream.relayd_stream_id) tries r h3
            have e2 := emitted_id_writes [Event.get_mmap_read_offset 0,
              Event.mutex_lock rl.net_seq_idx,
              Event.handle_stream_before_relayd len env.handle_stream_before_relayd_ret] rfl
              env.handle_stream_before_relayd_ret (htobe64 stream.relayd_stream_id) tries1 r h4
            by_cases hneg : r.ret < 0
            · rw [if_pos hneg, if_pos hneg]
              simp only [Option.map_some', MmapResult.observed, mmap_end_ret, mmap_end_trace,
                mmap_end_stream, emitted_append, e1, e2]
            · rw [if_neg hneg, if_neg hneg, observed_end_after, observed_end_after,
                mmap_write_loop_insert_eintr, e1, e2]
        · rw [mmap_relay_plain _ _ _ _ _ rl hnet hfind hret hmeta,
            mmap_relay_plain _ _ _ _ _ rl hnet hfind hret hmeta,
            observed_end_after, observed_end_after, mmap_write_loop_insert_eintr]
      · rw [mmap_relay_query_fails _ _ _ _ _ rl hnet hfind hret,
          mmap_relay_query_fails _ _ _ _ _ rl hnet hfind hret]

theorem read_retry_skip (reads : List SysRes) (k : Nat) :
    (read_retry (List.replicate k eintr ++ reads)).map Prod.snd =
      (read_retry reads).map Prod.snd := by
  induction k with
  | zero => simp
  | succ n ih =>
    rw [List.replicate_succ, List.cons_append, read_retry,
      if_pos (by decide : eintr.ret = -1 ∧ eintr.errno = EINTR), ← ih]
    cases read_retry (List.replicate n eintr ++ reads) <;> rfl

/-- The wait loop ends on the same answer when interrupted answers are put
in the script of `read` answers. -/
theorem read_retry_insert_eintr :
    ∀ (reads : List SysRes) (ks : List Nat),
    (read_retry (insert_eintr ks reads)).map Prod.snd = (read_retry reads).map Prod.snd := by
  intro reads
  induction reads with
  | nil =>
    intro ks
    cases ks with
    | nil => rfl
    | cons k ks1 =>
      have := read_retry_skip [] k
      simpa [insert_eintr] using this
  | cons a rest ih =>
    intro ks
    cases ks with
    | nil => rfl
    | cons k ks1 =>
      rw [insert_eintr, read_retry_skip, read_retry, read_retry]
      by_cases ha : a.ret = -1 ∧ a.errno = EINTR
      · rw [if_pos ha, if_pos ha]
        have := ih ks1
        cases h1 : read_retry (insert_eintr ks1 rest) <;> cases h2 : read_retry rest <;>
          simp_all
      · rw [if_neg ha, if_neg ha]

theorem without_reads_reads (fd : Int) (l : List SysRes) (t : List Event) :
    without_reads (l.map (Event.read_wait_fd fd) ++ t) = without_reads t := by
  induction l with
  | nil => rfl
  | cons a rest ih => simp [without_reads]

/-- What can be observed of a drain cycle depends on the script of `read`
answers only through the answer that ends the wait loop. -/
theorem read_subbuffer_observed_congr
    (transfer : lttng_consumer_stream → Nat → Option MmapResult) (env : ReadEnv)
    (stream : lttng_consumer_stream) (a b : List SysRes)
    (hab : (read_retry a).map Prod.snd = (read_retry b).map Prod.snd) :
    (lttng_ustconsumer_read_subbuffer transfer env stream a).map ReadResult.observed =
    (lttng_ustconsumer_read_subbuffer transfer env stream b).map ReadResult.observed := by
  unfold lttng_ustconsumer_read_subbuffer
  simp only
  by_cases hh : stream.hangup_flush_done = true
  · rw [if_neg (by simpa using hh), if_neg (by simpa using hh)]
  · rw [if_pos (by simpa using hh), if_pos (by simpa using hh)]
    cases ha : read_retry a with
    | none =>
      cases hb : read_retry b with
      | none => rfl
      | some q => rw [ha, hb] at hab; cases hab
    | some p =>
      cases hb : read_retry b with
      | none => rw [ha, hb] at hab; cases hab
      | some q =>
        obtain ⟨t1, r1⟩ := p
        obtain ⟨t2, r2⟩ := q
        rw [ha, hb] at hab
        have hr : r1 = r2 := by simpa using hab
        subst hr
        simp only
        by_cases hm : r1.ret = -1
        · rw [if_pos hm, if_pos hm]
          simp only [Option.map_some', ReadResult.observed]
          rw [← List.append_nil (List.map (Event.read_wait_fd stream.wait_fd) (t1 ++ [r1])),
            ← List.append_nil (List.map (Event.read_wait_fd stream.wait_fd) (t2 ++ [r1])),
            without_reads_reads, without_reads_reads]
        · rw [if_neg hm, if_neg hm]
          cases read_subbuffer_next transfer env stream 0 with
          | none => rfl
          | some y =>
            simp only [Option.map_some', ReadResult.observed, without_reads_reads]

/-! ## File offset, write-back hints and byte counts -/

/-- The payload loop changes no field of the stream but `out_fd_offset`. -/
theorem mmap_write_loop_stream (relayd : Bool) (outfd orig_offset : Int) :
    ∀ (script : List SysRes) (stream : lttng_consumer_stream) (len mmap_offset : Nat)
      (written : Int) (r : MmapResult),
      mmap_write_loop relayd outfd orig_offset stream len mmap_offset written script = some r →
      r.stream = { stream with out_fd_offset := r.stream.out_fd_offset } := by
  intro script
  induction script with
  | nil =>
    intro stream len mmap_offset written r h
    by_cases hlen : len = 0
    · subst hlen
      rw [mmap_write_loop_zero] at h
      cases h
      rfl
    · rw [mmap_write_loop_nil _ _ _ _ _ _ _ hlen] at h
      cases h
  | cons a rest ih =>
    intro stream len mmap_offset written r h
    by_cases hlen : len = 0
    · subst hlen
      rw [mmap_write_loop_zero] at h
      cases h
      rfl
    · rw [mmap_write_loop_cons _ _ _ _ _ _ _ _ _ hlen] at h
      split_ifs at h
      all_goals first
        | (cases h; rfl)
        | (obtain ⟨x, hx, rfl⟩ := Option.map_eq_some'.mp h
           exact (ih _ _ _ _ _ hx).trans rfl)

/-- With a relay the payload loop leaves the stream as it was. -/
theorem mmap_write_loop_relay_stream (outfd orig_offset : Int) :
    ∀ (script : List SysRes) (stream : lttng_consumer_stream) (len mmap_offset : Nat)
      (written : Int) (r : MmapResult),
      mmap_write_loop true outfd orig_offset stream len mmap_offset written script = some r →
      r.stream = stream := by
  intro script
  induction script with
  | nil =>
    intro stream len mmap_offset written r h
    by_cases hlen : len = 0
    · subst hlen
      rw [mmap_write_loop_zero] at h
      cases h
      rfl
    · rw [mmap_write_loop_nil _ _ _ _ _ _ _ hlen] at h
      cases h
  | cons a rest ih =>
    intro stream len mmap_offset written r h
    by_cases hlen : len = 0
    · subst hlen
      rw [mmap_write_loop_zero] at h
      cases h
      rfl
    · rw [mmap_write_loop_cons _ _ _ _ _ _ _ _ _ hlen] at h
      simp only [if_true] at h
      split_ifs at h
      all_goals first
        | (cases h; rfl)
        | (obtain ⟨x, hx, rfl⟩ := Option.map_eq_some'.mp h
           exact ih _ _ _ _ x hx)

/-- A run of the payload loop on a local file that counts all `len` bytes
moves `out_fd_offset` forward by `len`, gives one write-back hint for each
range written, and ends with the sync of the trace file. -/
theorem mmap_write_loop_local (outfd orig_offset : Int) :
    ∀ (script : List SysRes) (stream : lttng_consumer_stream) (len mmap_offset : Nat)
      (written : Int) (r : MmapResult),
      mmap_write_loop false outfd orig_offset stream len mmap_offset written script = some r →
      r.ret = written + len →
      r.stream.out_fd_offset = stream.out_fd_offset + len ∧
      hints r.trace = written_ranges stream.out_fd_offset r.trace ∧
      ∃ tr, r.trace = tr ++ [Event.sync_trace_file orig_offset] := by
  intro script
  induction script with
  | nil =>
    intro stream len mmap_offset written r h _
    by_cases hlen : len = 0
    · subst hlen
      rw [mmap_write_loop_zero] at h
      cases h
      exact ⟨by simp, rfl, [], rfl⟩
    · rw [mmap_write_loop_nil _ _ _ _ _ _ _ hlen] at h
      cases h
  | cons a rest ih =>
    intro stream len mmap_offset written r h hr
    by_cases hlen : len = 0
    · subst hlen
      rw [mmap_write_loop_zero] at h
      cases h
      exact ⟨by simp, rfl, [], rfl⟩
    · rw [mmap_write_loop_cons _ _ _ _ _ _ _ _ _ hlen] at h
      have hpos : (0 : Int) < len := by omega
      by_cases h1 : a.ret < 0 ∧ a.errno = EINTR
      · rw [if_pos h1] at h
        obtain ⟨x, hx, rfl⟩ := Option.map_eq_some'.mp h
        obtain ⟨e1, e2, tr, e3⟩ := ih _ _ _ _ _ hx hr
        refine ⟨e1, ?_,
          Event.write WriteSite.payload outfd (mmap_buf stream mmap_offset len) a :: tr, ?_⟩
        · simp only [after_trace, List.singleton_append]
          have h1neg : ¬ 0 ≤ a.ret := by omega
          simpa [hints, written_ranges, h1neg] using e2
        · simp [e3]
      · rw [if_neg h1] at h
        by_cases h2 : a.ret < 0
        · rw [if_pos h2] at h
          cases h
          exfalso
          simp only at hr
          split_ifs at hr <;> omega
        · rw [if_neg h2] at h
          by_cases h3 : a.ret > (len : Int)
          · rw [if_pos h3] at h
            cases h
            exfalso
            simp only at hr
            omega
          · rw [if_neg h3] at h
            simp only [Bool.false_eq_true, if_false] at h
            obtain ⟨x, hx, rfl⟩ := Option.map_eq_some'.mp h
            have hcast : ((len - a.ret.toNat : Nat) : Int) = len - a.ret := by
              have : a.ret.toNat ≤ len := by omega
              omega
            have hr1 : x.ret = written + a.ret + ((len - a.ret.toNat : Nat) : Int) := by
              rw [hcast]
              simp only [after_ret] at hr
              omega
            obtain ⟨e1, e2, tr, e3⟩ := ih _ _ _ _ _ hx hr1
            refine ⟨?_, ?_,
              Event.write WriteSite.payload outfd (mmap_buf stream mmap_offset len) a ::
                Event.sync_file_range outfd stream.out_fd_offset a.ret :: tr, ?_⟩
            · simp only [after_stream, e1, hcast]
              omega
            · simp only [after_trace]
              have h0 : 0 ≤ a.ret := by omega
              simp only at e2
              simp [hints, written_ranges, h0] at e2 ⊢
              exact e2
            · simp [e3]

/-- A transfer to a local file that returns `len`. -/
theorem mmap_local_success (data : lttng_consumer_global_data) (env : MmapEnv)
    (stream : lttng_consumer_stream) (len : Nat) (script : List SysRes) (r : MmapResult)
    (hq : env.get_mmap_read_offset_ret ≤ 0) (hnet : stream.net_seq_idx = -1)
    (h : lttng_ustconsumer_on_read_subbuffer_mmap data env stream len script = some r)
    (hr : r.ret = len) :
    r.stream.out_fd_offset = stream.out_fd_offset + len ∧
    hints r.trace = written_ranges stream.out_fd_offset r.trace ∧
    (∃ tr, r.trace = tr ++ [Event.sync_trace_file stream.out_fd_offset]) ∧
    r.stream.net_seq_idx = -1 := by
  by_cases hret : env.get_mmap_read_offset_ret = 0
  · rw [mmap_local _ _ _ _ _ hnet hret] at h
    obtain ⟨x, hx, rfl⟩ := Option.map_eq_some'.mp h
    simp only [mmap_end_ret, after_ret] at hr
    obtain ⟨e1, e2, tr, e3⟩ := mmap_write_loop_local _ _ _ _ _ _ _ _ hx
      (by rw [hr, zero_add])
    have e4 := mmap_write_loop_stream _ _ _ _ _ _ _ _ _ hx
    refine ⟨e1, ?_, ⟨Event.get_mmap_read_offset 0 :: tr, ?_⟩, ?_⟩
    · simp only [mmap_end_trace, after_trace, mmap_end_stream, after_stream,
        unlock_at_end_none, List.append_nil, List.singleton_append]
      simpa [hints, written_ranges] using e2
    · simp [e3]
    · simp only [mmap_end_stream, after_stream]
      rw [e4]
      exact hnet
  · rw [mmap_local_query_fails _ _ _ _ _ hnet hret] at h
    cases h
    simp only [mmap_end_ret] at hr
    omega

/-- A transfer for a stream whose relay peer exists leaves the stream as it
was. -/
theorem mmap_relay_stream (data : lttng_consumer_global_data) (env : MmapEnv)
    (stream : lttng_consumer_stream) (len : Nat) (script : List SysRes) (r : MmapResult)
    (rl : consumer_relayd_sock_pair) (hnet : stream.net_seq_idx ≠ -1)
    (hfind : consumer_find_relayd data stream.net_seq_idx = some rl)
    (h : lttng_ustconsumer_on_read_subbuffer_mmap data env stream len script = some r) :
    r.stream = stream := by
  by_cases hret : env.get_mmap_read_offset_ret = 0
  · by_cases hmeta : 0 ≤ env.handle_stream_before_relayd_ret ∧ stream.metadata_flag = true
    · rw [mmap_relay_metadata _ _ _ _ _ rl hnet hfind hret hmeta.1 hmeta.2] at h
      cases hw : write_retry script with
      | none => rw [hw] at h; cases h
      | some p =>
        obtain ⟨tries, a, rest⟩ := p
        rw [hw] at h
        simp only at h
        by_cases hneg : a.ret < 0
        · rw [if_pos hneg] at h
          cases h
          rfl
        · rw [if_neg hneg] at h
          obtain ⟨x, hx, rfl⟩ := Option.map_eq_some'.mp h
          exact mmap_write_loop_relay_stream _ _ _ _ _ _ _ x hx
    · rw [mmap_relay_plain _ _ _ _ _ rl hnet hfind hret hmeta] at h
      obtain ⟨x, hx, rfl⟩ := Option.map_eq_some'.mp h
      exact mmap_write_loop_relay_stream _ _ _ _ _ _ _ x hx
  · rw [mmap_relay_query_fails _ _ _ _ _ rl hnet hfind hret] at h
    cases h
    rfl

/-- A sink that accepts all `len` bytes in one `write` lets the transfer to
a local file return `len`. -/
theorem mmap_local_one_write (data : lttng_consumer_global_data) (env : MmapEnv)
    (stream : lttng_consumer_stream) (len : Nat)
    (hnet : stream.net_seq_idx = -1) (hret : env.get_mmap_read_offset_ret = 0) :
    ∃ r, lttng_ustconsumer_on_read_subbuffer_mmap data env stream len [⟨len, 0⟩] = some r ∧
      r.ret = len := by
  rw [mmap_local _ _ _ _ _ hnet hret]
  by_cases hlen : len = 0
  · subst hlen
    rw [mmap_write_loop_zero]
    exact ⟨_, rfl, rfl⟩
  · rw [mmap_write_loop_cons _ _ _ _ _ _ _ _ _ hlen]
    have h1 : ¬ ((len : Int) < 0 ∧ (0 : Int) = EINTR) := by omega
    have h2 : ¬ ((len : Int) < 0) := by omega
    have h3 : ¬ ((len : Int) > (len : Int)) := by omega
    simp only [h1, h2, h3, if_false, Bool.false_eq_true, Int.toNat_ofNat, Nat.sub_self,
      mmap_write_loop_zero, Option.map_some']
    exact ⟨_, rfl, by simp⟩

theorem payload_results_append (a b : List Event) :
    payload_results (a ++ b) = payload_results a ++ payload_results b := by
  simp [payload_results, List.filterMap_append]

theorem payload_results_id_writes (fd : Int) (buf : List Nat) (l : List SysRes) :
    payload_results (l.map (Event.write WriteSite.metadata_id fd buf)) = [] := by
  induction l with
  | nil => rfl
  | cons a t ih => simp [payload_results]

theorem payload_over_reported_id_writes (fd : Int) (buf : List Nat) (l : List SysRes) :
    payload_over_reported (l.map (Event.write WriteSite.metadata_id fd buf)) = false := by
  induction l with
  | nil => rfl
  | cons a t ih => simp [payload_over_reported]

theorem payload_results_unlock_at_end (relayd : Option consumer_relayd_sock_pair)
    (flag : Bool) : payload_results (unlock_at_end relayd flag) = [] := by
  cases relayd <;> cases flag <;> rfl

theorem payload_over_reported_unlock_at_end (relayd : Option consumer_relayd_sock_pair)
    (flag : Bool) : payload_over_reported (unlock_at_end relayd flag) = false := by
  cases relayd <;> cases flag <;> rfl

/-- A non-negative value returned by the payload loop is the count it started
from plus the sum of the non-negative answers of its writes. -/
theorem mmap_write_loop_sum (relayd : Bool) (outfd orig_offset : Int) :
    ∀ (script : List SysRes) (stream : lttng_consumer_stream) (len mmap_offset : Nat)
      (written : Int) (r : MmapResult),
      mmap_write_loop relayd outfd orig_offset stream len mmap_offset written script = some r →
      0 ≤ r.ret → r.ret = written + sum_nonneg (payload_results r.trace) := by
  intro script
  induction script with
  | nil =>
    intro stream len mmap_offset written r h _
    by_cases hlen : len = 0
    · subst hlen
      rw [mmap_write_loop_zero] at h
      cases h
      simp [payload_results, sum_nonneg]
    · rw [mmap_write_loop_nil _ _ _ _ _ _ _ hlen] at h
      cases h
  | cons a rest ih =>
    intro stream len mmap_offset written r h h0
    by_cases hlen : len = 0
    · subst hlen
      rw [mmap_write_loop_zero] at h
      cases h
      simp [payload_results, sum_nonneg]
    · rw [mmap_write_loop_cons _ _ _ _ _ _ _ _ _ hlen] at h
      have hpos : (0 : Int) < len := by omega
      by_cases h1 : a.ret < 0 ∧ a.errno = EINTR
      · rw [if_pos h1] at h
        obtain ⟨x, hx, rfl⟩ := Option.map_eq_some'.mp h
        have := ih _ _ _ _ _ hx h0
        have hn : ¬ 0 ≤ a.ret := by omega
        simp only [after_ret, after_trace, List.singleton_append]
        simp only [payload_results, List.filterMap_cons, sum_nonneg, hn, if_false, zero_add]
        exact this
      · rw [if_neg h1] at h
        by_cases h2 : a.ret < 0
        · rw [if_pos h2] at h
          cases h
          have hn : ¬ 0 ≤ a.ret := by omega
          simp only at h0
          by_cases hw : written = 0
          · rw [if_pos hw] at h0
            omega
          · simp [hw, payload_results, sum_nonneg, hn]
        · rw [if_neg h2] at h
          have hp : 0 ≤ a.ret := by omega
          by_cases h3 : a.ret > (len : Int)
          · rw [if_pos h3] at h
            cases h
            simp [payload_results, sum_nonneg, hp]
          · rw [if_neg h3] at h
            split_ifs at h
            all_goals
              obtain ⟨x, hx, rfl⟩ := Option.map_eq_some'.mp h
              have := ih _ _ _ _ _ hx h0
              simp only [after_ret, after_trace]
              simp [payload_results, sum_nonneg, hp]
              simp only [payload_results] at this
              omega

/-- The payload loop returns more than the count it started from plus `len`
exactly when one of its writes reported more bytes than it was given. -/
theorem mmap_write_loop_over (relayd : Bool) (outfd orig_offset : Int) :
    ∀ (script : List SysRes) (stream : lttng_consumer_stream) (len mmap_offset : Nat)
      (written : Int) (r : MmapResult), 0 ≤ written →
      mmap_write_loop relayd outfd orig_offset stream len mmap_offset written script = some r →
      (payload_over_reported r.trace = true ↔ written + len < r.ret) := by
  intro script
  induction script with
  | nil =>
    intro stream len mmap_offset written r _ h
    by_cases hlen : len = 0
    · subst hlen
      rw [mmap_write_loop_zero] at h
      cases h
      simp [payload_over_reported]
    · rw [mmap_write_loop_nil _ _ _ _ _ _ _ hlen] at h
      cases h
  | cons a rest ih =>
    intro stream len mmap_offset written r hw h
    by_cases hlen : len = 0
    · subst hlen
      rw [mmap_write_loop_zero] at h
      cases h
      simp [payload_over_reported]
    · rw [mmap_write_loop_cons _ _ _ _ _ _ _ _ _ hlen] at h
      have hpos : (0 : Int) < len := by omega
      by_cases h1 : a.ret < 0 ∧ a.errno = EINTR
      · rw [if_pos h1] at h
        obtain ⟨x, hx, rfl⟩ := Option.map_eq_some'.mp h
        have := ih _ _ _ _ _ hw hx
        have hn : ¬ (len : Int) < a.ret := by omega
        simp only [after_ret, after_trace, payload_over_reported_append]
        rw [← this]
        simp [payload_over_reported, mmap_buf_length, hn]
      · rw [if_neg h1] at h
        by_cases h2 : a.ret < 0
        · rw [if_pos h2] at h
          cases h
          have hn : ¬ (len : Int) < a.ret := by omega
          simp only [payload_over_reported, List.any_cons, List.any_nil, mmap_buf_length,
            hn, decide_False, Bool.or_false, Bool.false_eq_true, false_iff]
          split_ifs <;> omega
        · rw [if_neg h2] at h
          by_cases h3 : a.ret > (len : Int)
          · rw [if_pos h3] at h
            cases h
            have hy : (len : Int) < a.ret := h3
            simp only [payload_over_reported, List.any_cons, List.any_nil, mmap_buf_length,
              hy, decide_True, Bool.or_false, true_iff]
            omega
          · rw [if_neg h3] at h
            have hn : ¬ (len : Int) < a.ret := h3
            have hcast : ((len - a.ret.toNat : Nat) : Int) = len - a.ret := by
              have : a.ret.toNat ≤ len := by omega
              omega
            split_ifs at h
            all_goals
              obtain ⟨x, hx, rfl⟩ := Option.map_eq_some'.mp h
              have := ih _ _ _ _ _ (by omega : 0 ≤ written + a.ret) hx
              rw [hcast] at this
              simp only [after_ret, after_trace, payload_over_reported_append]
              have e : written + a.ret + (↑len - a.ret) = written + len := by omega
              rw [e] at this
              rw [← this]
              simp [payload_over_reported, mmap_buf_length, hn]

/-- Payload answers and over-reporting of a trace made of the trace of the
payload loop between actions that are not payload writes. -/
theorem payload_frame (pre tr post : List Event) (h1 : payload_results pre = [])
    (h2 : payload_results post = []) (h3 : payload_over_reported pre = false)
    (h4 : payload_over_reported post = false) :
    payload_results (pre ++ tr ++ post) = payload_results tr ∧
    payload_over_reported (pre ++ tr ++ post) = payload_over_reported tr := by
  simp [payload_results_append, payload_over_reported_append, h1, h2, h3, h4]

/-- A non-negative value returned by the mmap transfer is the sum of the
non-negative answers of its payload writes, and it is above `len` exactly
when one of them reported more bytes than it was given. -/
theorem mmap_nonneg_ret (data : lttng_consumer_global_data) (env : MmapEnv)
    (stream : lttng_consumer_stream) (len : Nat) (script : List SysRes) (r : MmapResult)
    (hq : env.get_mmap_read_offset_ret ≤ 0)
    (h : lttng_ustconsumer_on_read_subbuffer_mmap data env stream len script = some r)
    (h0 : 0 ≤ r.ret) :
    r.ret = sum_nonneg (payload_results r.trace) ∧
    (payload_over_reported r.trace = true ↔ (len : Int) < r.ret) := by
  have loop_case : ∀ (relayd : Bool) (outfd : Int) (rest : List SysRes) (x : MmapResult)
      (pre post : List Event), payload_results pre = [] → payload_results post = [] →
      payload_over_reported pre = false → payload_over_reported post = false →
      mmap_write_loop relayd outfd stream.out_fd_offset stream len env.mmap_offset 0 rest =
        some x → 0 ≤ x.ret →
      x.ret = sum_nonneg (payload_results (pre ++ x.trace ++ post)) ∧
      (payload_over_reported (pre ++ x.trace ++ post) = true ↔ (len : Int) < x.ret) := by
    intro relayd outfd rest x pre post p1 p2 p3 p4 hx hx0
    obtain ⟨f1, f2⟩ := payload_frame pre x.trace post p1 p2 p3 p4
    rw [f1, f2]
    have s1 := mmap_write_loop_sum _ _ _ _ _ _ _ _ _ hx hx0
    have s2 := mmap_write_loop_over _ _ _ _ _ _ _ _ _ (le_refl 0) hx
    rw [zero_add] at s1 s2
    exact ⟨s1, s2⟩
  by_cases hnet : stream.net_seq_idx = -1
  · by_cases hret : env.get_mmap_read_offset_ret = 0
    · rw [mmap_local _ _ _ _ _ hnet hret] at h
      obtain ⟨x, hx, rfl⟩ := Option.map_eq_some'.mp h
      simp only [mmap_end_ret, mmap_end_trace, after_ret, after_trace] at h0 ⊢
      exact loop_case _ _ _ x _ _ rfl rfl rfl rfl hx h0
    · rw [mmap_local_query_fails _ _ _ _ _ hnet hret] at h
      cases h
      simp only [mmap_end_ret] at h0
      omega
  · cases hfind : consumer_find_relayd data stream.net_seq_idx with
    | none =>
      rw [mmap_peer_missing _ _ _ _ _ hnet hfind] at h
      cases h
      simp [payload_results, sum_nonneg, payload_over_reported]
    | some rl =>
      by_cases hret : env.get_mmap_read_offset_ret = 0
      · by_cases hmeta : 0 ≤ env.handle_stream_before_relayd_ret ∧ stream.metadata_flag = true
        · rw [mmap_relay_metadata _ _ _ _ _ rl hnet hfind hret hmeta.1 hmeta.2] at h
          cases hw : write_retry script with
          | none => rw [hw] at h; cases h
          | some p =>
            obtain ⟨tries, a, rest⟩ := p
            rw [hw] at h
            simp only at h
            by_cases hneg : a.ret < 0
            · rw [if_pos hneg] at h
              cases h
              simp only [mmap_end_ret] at h0
              omega
            · rw [if_neg hneg] at h
              obtain ⟨x, hx, rfl⟩ := Option.map_eq_some'.mp h
              simp only [mmap_end_ret, mmap_end_trace, after_ret, after_trace] at h0 ⊢
              refine loop_case _ _ _ x _ _ ?_ (payload_results_unlock_at_end _ _) ?_
                (payload_over_reported_unlock_at_end _ _) hx h0
              · rw [payload_results_append, payload_results_id_writes]
                rfl
              · rw [payload_over_reported_append, payload_over_reported_id_writes]
                rfl
        · rw [mmap_relay_plain _ _ _ _ _ rl hnet hfind hret hmeta] at h
          obtain ⟨x, hx, rfl⟩ := Option.map_eq_some'.mp h
          simp only [mmap_end_ret, mmap_end_trace, after_ret, after_trace] at h0 ⊢
          refine loop_case _ _ _ x _ _ ?_ (payload_results_unlock_at_end _ _) ?_
            (payload_over_reported_unlock_at_end _ _) hx h0
          · cases stream.metadata_flag <;> rfl
          · cases stream.metadata_flag <;> rfl
      · rw [mmap_relay_query_fails _ _ _ _ _ rl hnet hfind hret] at h
        cases h
        simp only [mmap_end_ret] at h0
        omega

/-! ## The command dispatcher -/

theorem wakeup_writes_append (a b : List Event) :
    wakeup_writes (a ++ b) = wakeup_writes a ++ wakeup_writes b := by
  simp [wakeup_writes, List.filterMap_append]

theorem wakeup_writes_map (fd : Int) (buf : List Nat) (l : List SysRes) :
    wakeup_writes (l.map (Event.write WriteSite.wakeup fd buf)) =
      l.map (fun r => (fd, buf, r)) := by
  induction l with
  | nil => rfl
  | cons a t ih =>
    rw [List.map_cons, List.map_cons, ← ih]
    rfl

/-- The retry loop stops at the first answer that is not an interruption. -/
theorem write_retry_spec (script : List SysRes) (tries : List SysRes) (fin : SysRes)
    (rest : List SysRes) (h : write_retry script = some (tries, fin, rest)) :
    script = tries ++ fin :: rest ∧ (∀ t ∈ tries, interrupted t = true) ∧
      interrupted fin = false := by
  induction script generalizing tries with
  | nil => simp [write_retry] at h
  | cons a t ih =>
    rw [write_retry] at h
    by_cases ha : a.ret < 0 ∧ a.errno = EINTR
    · rw [if_pos ha] at h
      obtain ⟨p, hp, hq⟩ := Option.map_eq_some'.mp h
      obtain ⟨p1, p2, p3⟩ := p
      simp only [Prod.mk.injEq] at hq
      obtain ⟨rfl, rfl, rfl⟩ := hq
      obtain ⟨e1, e2, e3⟩ := ih p1 hp
      refine ⟨by rw [e1]; rfl, ?_, e3⟩
      intro x hx
      rcases List.mem_cons.mp hx with rfl | hx
      · simp [interrupted, ha]
      · exact e2 x hx
    · rw [if_neg ha] at h
      simp only [Option.some.injEq, Prod.mk.injEq] at h
      obtain ⟨rfl, rfl, rfl⟩ := h
      exact ⟨rfl, by simp, by simp [interrupted, ha]⟩

/-- The label `end`: the run returns 0 after one write to the wake-up pipe
that is not interrupted, every write before it having been interrupted. -/
theorem recv_cmd_end_spec (ctx : lttng_consumer_local_data)
    (data : lttng_consumer_global_data) (trace : List Event) (script : List SysRes)
    (res : RecvResult) (htr : wakeup_writes trace = [])
    (h : recv_cmd_end ctx data trace script = some res) :
    res.exit = Exit.returned 0 ∧ res.data = data ∧
    ∃ tries fin, res.trace = trace ++
        (tries ++ [fin]).map (Event.write WriteSite.wakeup ctx.consumer_poll_pipe_1 [0]) ∧
      wakeup_writes res.trace =
        (tries ++ [fin]).map (fun r => (ctx.consumer_poll_pipe_1, [0], r)) ∧
      (∀ t ∈ tries, interrupted t = true) ∧ interrupted fin = false := by
  unfold recv_cmd_end at h
  cases hw : write_retry script with
  | none => rw [hw] at h; cases h
  | some p =>
    obtain ⟨tries, fin, rest⟩ := p
    rw [hw] at h
    cases h
    obtain ⟨_, e2, e3⟩ := write_retry_spec script tries fin rest hw
    exact ⟨rfl, rfl, tries, fin, rfl, by rw [wakeup_writes_append, htr, wakeup_writes_map]; rfl,
      e2, e3⟩

theorem recv_cmd_end_returns (ctx : lttng_consumer_local_data)
    (data : lttng_consumer_global_data) (trace : List Event) (script : List SysRes)
    (fin : SysRes) (hfin : interrupted fin = false) :
    ∃ res, recv_cmd_end ctx data trace (script ++ [fin]) = some res := by
  have hf : ¬ (fin.ret < 0 ∧ fin.errno = EINTR) := by simpa [interrupted] using hfin
  obtain ⟨tries, r, rest, hp, _⟩ := write_retry_returns script fin hf
  unfold recv_cmd_end
  rw [hp]
  exact ⟨_, rfl⟩

/-- The case ADD_RELAYD_SOCKET never writes to the wake-up pipe. -/
theorem recv_add_relayd_socket_no_wakeup (env : RecvEnv)
    (data : lttng_consumer_global_data) :
    wakeup_writes (recv_add_relayd_socket env data).trace = [] := by
  unfold recv_add_relayd_socket
  simp only
  repeat' split
  all_goals rfl

/-- The case ADD_CHANNEL never writes to the wake-up pipe. -/
theorem recv_add_channel_no_wakeup (ctx : lttng_consumer_local_data) (env : RecvEnv)
    (data : lttng_consumer_global_data) :
    wakeup_writes (recv_add_channel ctx env data).trace = [] := by
  unfold recv_add_channel
  simp only
  repeat' split
  all_goals rfl

theorem recv_add_stream_hook_end (ctx : lttng_consumer_local_data)
    (data : lttng_consumer_global_data) (new_stream : lttng_consumer_stream)
    (trace : List Event) (htr : wakeup_writes trace = []) :
    ∃ data1 tr, wakeup_writes tr = [] ∧
      ∀ script, recv_add_stream_hook ctx data new_stream trace script =
        recv_cmd_end ctx data1 tr script := by
  unfold recv_add_stream_hook
  cases ctx.on_recv_stream with
  | none => exact ⟨_, _, htr, fun _ => rfl⟩
  | some hook =>
    simp only
    have htr1 : wakeup_writes
        (trace ++ [Event.on_recv_stream new_stream.key (hook new_stream).1]) = [] := by
      rw [wakeup_writes_append, htr]
      rfl
    by_cases h0 : (hook new_stream).1 = 0
    · exact ⟨consumer_add_stream data (hook new_stream).2, _, htr1,
        fun _ => by rw [if_pos h0]⟩
    · exact ⟨data, _, htr1, fun _ => by rw [if_neg h0]⟩

/-- Once the poll succeeded, both descriptors were received and the output
mode is mmap, every path of the case ADD_STREAM leads to the label `end`. -/
theorem recv_add_stream_end (ctx : lttng_consumer_local_data) (env : RecvEnv)
    (data : lttng_consumer_global_data) (hpoll : 0 ≤ env.poll_socket_ret)
    (hfds : env.recv_fds_ret = 2 * sizeof_int)
    (hout : env.msg.stream_output = lttng_event_output.LTTNG_EVENT_MMAP) :
    ∃ data1 tr, wakeup_writes tr = [] ∧
      ∀ script, recv_add_stream ctx env data script = recv_cmd_end ctx data1 tr script := by
  unfold recv_add_stream
  simp only [hfds, hout, if_neg (not_lt.mpr hpoll), ne_eq, not_true_eq_false, if_false]
  by_cases ha : env.allocate_stream_ok = false
  · simp only [ha, if_true]
    refine ⟨_, _, ?_, fun _ => rfl⟩
    rfl
  · simp only [ha, if_false]
    cases consumer_find_relayd data env.msg.stream_net_index with
    | none =>
      simp only
      by_cases hn : env.msg.stream_net_index = -1
      · simp only [hn, not_true_eq_false, if_false]
        exact recv_add_stream_hook_end ctx data _ _ rfl
      · simp only [hn, not_false_eq_true, if_true]
        refine ⟨_, _, ?_, fun _ => rfl⟩
        rfl
    | some rl =>
      simp only
      by_cases hr : env.relayd_add_stream_ret < 0
      · simp only [hr, if_true]
        refine ⟨_, _, ?_, fun _ => rfl⟩
        rfl
      · simp only [hr, if_false]
        exact recv_add_stream_hook_end ctx data _ _ rfl

/-- A message read whole whose kind is ADD_STREAM is handled by the case
ADD_STREAM. -/
theorem recv_cmd_add_stream (ctx : lttng_consumer_local_data) (env : RecvEnv)
    (data : lttng_consumer_global_data) (script : List SysRes)
    (hwhole : env.recv_ret = env.sizeof_msg)
    (hcmd : env.msg.cmd_type = lttng_consumer_command.LTTNG_CONSUMER_ADD_STREAM) :
    lttng_ustconsumer_recv_cmd ctx env data script = recv_add_stream ctx env data script := by
  unfold lttng_ustconsumer_recv_cmd
  simp [hwhole, hcmd]

/-- A message read whole of an unknown kind leads to the label `end`. -/
theorem recv_cmd_other (ctx : lttng_consumer_local_data) (env : RecvEnv)
    (data : lttng_consumer_global_data) (script : List SysRes) (n : Nat)
    (hwhole : env.recv_ret = env.sizeof_msg)
    (hcmd : env.msg.cmd_type = lttng_consumer_command.other n) :
    lttng_ustconsumer_recv_cmd ctx env data script = recv_cmd_end ctx data [] script := by
  unfold lttng_ustconsumer_recv_cmd
  simp [hwhole, hcmd]

/-- A message read whole of kind STOP, ADD_RELAYD_SOCKET, ADD_CHANNEL or
UPDATE_STREAM is handled without any write to the wake-up pipe. -/
theorem recv_cmd_nosignal (ctx : lttng_consumer_local_data) (env : RecvEnv)
    (data : lttng_consumer_global_data) (script : List SysRes)
    (hwhole : env.recv_ret = env.sizeof_msg)
    (hcmd : env.msg.cmd_type = lttng_consumer_command.LTTNG_CONSUMER_STOP ∨
      env.msg.cmd_type = lttng_consumer_command.LTTNG_CONSUMER_ADD_RELAYD_SOCKET ∨
      env.msg.cmd_type = lttng_consumer_command.LTTNG_CONSUMER_ADD_CHANNEL ∨
      env.msg.cmd_type = lttng_consumer_command.LTTNG_CONSUMER_UPDATE_STREAM) :
    ∃ res, lttng_ustconsumer_recv_cmd ctx env data script = some res ∧
      wakeup_writes res.trace = [] := by
  unfold lttng_ustconsumer_recv_cmd
  rcases hcmd with hc | hc | hc | hc
  · simp only [hwhole, hc]
    exact ⟨⟨Exit.returned (-ENOENT), data, []⟩, by simp, rfl⟩
  · simp only [hwhole, hc]
    exact ⟨_, by simp, recv_add_relayd_socket_no_wakeup env data⟩
  · simp only [hwhole, hc]
    exact ⟨_, by simp, recv_add_channel_no_wakeup ctx env data⟩
  · simp only [hwhole, hc]
    exact ⟨⟨Exit.returned (-ENOSYS), data, []⟩, by simp, rfl⟩

/-- The case ADD_STREAM ends without any write to the wake-up pipe when the
poll fails, when the two descriptors are not received, or when the output
mode is not mmap. -/
theorem recv_add_stream_early (ctx : lttng_consumer_local_data) (env : RecvEnv)
    (data : lttng_consumer_global_data) (script : List SysRes)
    (hearly : env.poll_socket_ret < 0 ∨ env.recv_fds_ret ≠ 2 * sizeof_int ∨
      env.msg.stream_output ≠ lttng_event_output.LTTNG_EVENT_MMAP) :
    ∃ res, recv_add_stream ctx env data script = some res ∧
      wakeup_writes res.trace = [] := by
  unfold recv_add_stream
  simp only
  by_cases h1 : env.poll_socket_ret < 0
  · rw [if_pos h1]
    exact ⟨⟨Exit.returned (-EINTR), data, [Event.poll_socket env.poll_socket_ret]⟩, rfl, rfl⟩
  · rw [if_neg h1]
    by_cases h2 : env.recv_fds_ret ≠ 2 * sizeof_int
    · rw [if_pos h2]
      exact ⟨⟨Exit.returned (int_of_long env.recv_fds_ret), data,
        [Event.poll_socket env.poll_socket_ret, Event.recv_fds 2 env.recv_fds_ret] ++
          [Event.send_error SendError.CONSUMERD_ERROR_RECV_FD]⟩, rfl, rfl⟩
    · rw [if_neg h2]
      have h3 : env.msg.stream_output ≠ lttng_event_output.LTTNG_EVENT_MMAP := by
        rcases hearly with h | h | h
        · exact absurd h h1
        · exact absurd h h2
        · exact h
      rw [if_pos h3]
      exact ⟨⟨Exit.assert_failed, data,
        [Event.poll_socket env.poll_socket_ret, Event.recv_fds 2 env.recv_fds_ret]⟩, rfl, rfl⟩

theorem calls_relayd_add_stream_wakeup (tr : List Event) (fd : Int) (buf : List Nat)
    (l : List SysRes) :
    calls_relayd_add_stream (tr ++ l.map (Event.write WriteSite.wakeup fd buf)) =
      calls_relayd_add_stream tr := by
  simp [calls_relayd_add_stream, List.any_append, List.any_map]

theorem calls_on_recv_stream_wakeup (tr : List Event) (fd : Int) (buf : List Nat)
    (l : List SysRes) :
    calls_on_recv_stream (tr ++ l.map (Event.write WriteSite.wakeup fd buf)) =
      calls_on_recv_stream tr := by
  simp [calls_on_recv_stream, List.any_append, List.any_map]

/-- The case ADD_STREAM for a stream that targets a relay peer that is not
registered: the stream is dropped and the label `end` reached with the
registries as they were, without the relay registration or the hook. -/
theorem recv_add_stream_unknown_relay (ctx : lttng_consumer_local_data) (env : RecvEnv)
    (data : lttng_consumer_global_data) (hpoll : 0 ≤ env.poll_socket_ret)
    (hfds : env.recv_fds_ret = 2 * sizeof_int)
    (hout : env.msg.stream_output = lttng_event_output.LTTNG_EVENT_MMAP)
    (hnet : env.msg.stream_net_index ≠ -1)
    (hfind : consumer_find_relayd data env.msg.stream_net_index = none) :
    ∃ tr, wakeup_writes tr = [] ∧ calls_relayd_add_stream tr = false ∧
      calls_on_recv_stream tr = false ∧
      ∀ script, recv_add_stream ctx env data script = recv_cmd_end ctx data tr script := by
  unfold recv_add_stream
  simp only [hfds, hout, hfind, if_neg (not_lt.mpr hpoll), ne_eq, not_true_eq_false, if_false]
  by_cases ha : env.allocate_stream_ok = false
  · simp only [ha, if_true]
    refine ⟨_, ?_, ?_, ?_, fun _ => rfl⟩ <;> rfl
  · simp only [ha, if_false, hnet, not_false_eq_true, if_true]
    refine ⟨_, ?_, ?_, ?_, fun _ => rfl⟩ <;> rfl

/-! ## Framing and locking of the transfer -/

theorem mmap_buf_take (stream next : lttng_consumer_stream)
    (hbase : next.mmap_base = stream.mmap_base) (mmap_offset len k : Nat) (hk : k ≤ len) :
    (mmap_buf stream mmap_offset len).take k ++ mmap_buf next (mmap_offset + k) (len - k) =
      mmap_buf stream mmap_offset len := by
  unfold mmap_buf
  rw [← List.map_take, List.take_range, min_eq_left hk, hbase]
  have hsplit : len = k + (len - k) := by omega
  conv_rhs => rw [hsplit, List.range_add, List.map_append, List.map_map]
  congr 1
  apply List.map_congr_left
  intro i _
  simp [Nat.add_assoc]

/-- A run of the payload loop that counts all `len` bytes emits exactly the
bytes `mmap_base[mmap_offset .. mmap_offset + len)`, in order. -/
theorem mmap_write_loop_emitted (relayd : Bool) (outfd orig_offset : Int) :
    ∀ (script : List SysRes) (stream : lttng_consumer_stream) (len mmap_offset : Nat)
      (written : Int) (r : MmapResult),
      mmap_write_loop relayd outfd orig_offset stream len mmap_offset written script = some r →
      r.ret = written + len → mmap_offset + len < 2 ^ 64 →
      emitted r.trace = mmap_buf stream mmap_offset len := by
  intro script
  induction script with
  | nil =>
    intro stream len mmap_offset written r h _ _
    by_cases hlen : len = 0
    · subst hlen
      rw [mmap_write_loop_zero] at h
      cases h
      rfl
    · rw [mmap_write_loop_nil _ _ _ _ _ _ _ hlen] at h
      cases h
  | cons a rest ih =>
    intro stream len mmap_offset written r h hr hoff
    by_cases hlen : len = 0
    · subst hlen
      rw [mmap_write_loop_zero] at h
      cases h
      rfl
    · rw [mmap_write_loop_cons _ _ _ _ _ _ _ _ _ hlen] at h
      have hpos : (0 : Int) < len := by omega
      by_cases h1 : a.ret < 0 ∧ a.errno = EINTR
      · rw [if_pos h1] at h
        obtain ⟨x, hx, rfl⟩ := Option.map_eq_some'.mp h
        have e := ih _ _ _ _ _ hx hr hoff
        have hz : a.ret.toNat = 0 := by omega
        simp only [after_trace, emitted_append, e]
        simp [emitted, Event.accepted, hz]
      · rw [if_neg h1] at h
        by_cases h2 : a.ret < 0
        · rw [if_pos h2] at h
          cases h
          exfalso
          simp only at hr
          split_ifs at hr <;> omega
        · rw [if_neg h2] at h
          by_cases h3 : a.ret > (len : Int)
          · rw [if_pos h3] at h
            cases h
            exfalso
            simp only at hr
            omega
          · rw [if_neg h3] at h
            have hk : a.ret.toNat ≤ len := by omega
            have hcast : ((len - a.ret.toNat : Nat) : Int) = len - a.ret := by omega
            have hmod : (mmap_offset + a.ret.toNat) % 2 ^ 64 = mmap_offset + a.ret.toNat :=
              Nat.mod_eq_of_lt (by omega)
            rw [hmod] at h
            split_ifs at h
            · obtain ⟨x, hx, rfl⟩ := Option.map_eq_some'.mp h
              have e := ih _ _ _ _ _ hx (by rw [hcast]; simp only [after_ret] at hr; omega)
                (by omega)
              simp only [after_trace, emitted_append, e]
              simp only [emitted, Event.accepted, List.append_nil]
              exact mmap_buf_take stream stream rfl mmap_offset len a.ret.toNat hk
            · obtain ⟨x, hx, rfl⟩ := Option.map_eq_some'.mp h
              have e := ih _ _ _ _ _ hx (by rw [hcast]; simp only [after_ret] at hr; omega)
                (by omega)
              simp only [after_trace, emitted_append, e]
              simp only [emitted, Event.accepted, List.append_nil, List.nil_append]
              exact mmap_buf_take stream _ rfl mmap_offset len a.ret.toNat hk

/-- Framing of a transfer that returns `len`, the read offset and `len`
staying inside the address range: a metadata stream of a relay whose
descriptor was resolved and whose identifier `write` returned 8 emits the 8
bytes of `relayd_stream_id`, most significant first, then the payload; a
stream that is not a metadata stream emits the payload alone. -/
theorem mmap_framing (data : lttng_consumer_global_data) (env : MmapEnv)
    (stream : lttng_consumer_stream) (len : Nat) (script : List SysRes) (r : MmapResult)
    (hq : env.get_mmap_read_offset_ret ≤ 0) (hoff : env.mmap_offset + len < 2 ^ 64)
    (h : lttng_ustconsumer_on_read_subbuffer_mmap data env stream len script = some r)
    (hr : r.ret = len) (hlen : 0 < len) :
    (stream.metadata_flag = false → emitted r.trace = mmap_buf stream env.mmap_offset len) ∧
    (∀ rl tries fin rest, stream.metadata_flag = true → stream.net_seq_idx ≠ -1 →
      consumer_find_relayd data stream.net_seq_idx = some rl →
      0 ≤ env.handle_stream_before_relayd_ret →
      write_retry script = some (tries, fin, rest) → fin.ret = 8 →
      emitted r.trace =
        htobe64 stream.relayd_stream_id ++ mmap_buf stream env.mmap_offset len) := by
  have hne : (len : Int) ≠ 0 := by omega
  have loop_case : ∀ (relayd : Bool) (outfd : Int) (rest : List SysRes) (x : MmapResult)
      (pre post : List Event) (bytes : List Nat), emitted pre = bytes → emitted post = [] →
      mmap_write_loop relayd outfd stream.out_fd_offset stream len env.mmap_offset 0 rest =
        some x → x.ret = len →
      emitted (pre ++ x.trace ++ post) = bytes ++ mmap_buf stream env.mmap_offset len := by
    intro relayd outfd rest x pre post bytes p1 p2 hx hxr
    rw [emitted_append, emitted_append, p1, p2,
      mmap_write_loop_emitted _ _ _ _ _ _ _ _ _ hx (by rw [hxr, zero_add]) hoff]
    simp
  by_cases hnet : stream.net_seq_idx = -1
  · refine ⟨fun _ => ?_, fun _ _ _ _ _ hn => absurd hnet hn⟩
    by_cases hret : env.get_mmap_read_offset_ret = 0
    · rw [mmap_local _ _ _ _ _ hnet hret] at h
      obtain ⟨x, hx, rfl⟩ := Option.map_eq_some'.mp h
      simp only [mmap_end_ret, mmap_end_trace, after_ret, after_trace] at hr ⊢
      exact loop_case _ _ _ x _ _ [] rfl rfl hx hr
    · rw [mmap_local_query_fails _ _ _ _ _ hnet hret] at h
      cases h
      simp only [mmap_end_ret] at hr
      omega
  · cases hfind : consumer_find_relayd data stream.net_seq_idx with
    | none =>
      rw [mmap_peer_missing _ _ _ _ _ hnet hfind] at h
      cases h
      simp only [mmap_end_ret] at hr
      omega
    | some rl =>
      by_cases hret : env.get_mmap_read_offset_ret = 0
      · by_cases hmeta : 0 ≤ env.handle_stream_before_relayd_ret ∧ stream.metadata_flag = true
        · refine ⟨fun hf => absurd (hmeta.2.symm.trans hf) (by decide), ?_⟩
          intro rl1 tries fin rest _ _ _ _ hw hfin
          rw [mmap_relay_metadata _ _ _ _ _ rl hnet hfind hret hmeta.1 hmeta.2, hw] at h
          simp only [show ¬ (fin.ret < 0) by omega, if_false] at h
          obtain ⟨x, hx, rfl⟩ := Option.map_eq_some'.mp h
          simp only [mmap_end_ret, mmap_end_trace, after_ret, after_trace] at hr ⊢
          refine loop_case _ _ _ x _ _ _ ?_ (emitted_unlock_at_end _ _) hx hr
          rw [emitted_id_writes [Event.get_mmap_read_offset 0, Event.mutex_lock rl.net_seq_idx,
            Event.handle_stream_before_relayd len env.handle_stream_before_relayd_ret] rfl
            _ _ tries fin
            (fun t ht => by
              have := (write_retry_spec script tries fin rest hw).2.1 t ht
              simp only [interrupted, decide_eq_true_eq] at this
              exact this.1)]
          simp [htobe64, hfin]
        · refine ⟨fun hf => ?_, fun _ _ _ _ hm _ _ hfd _ _ => absurd ⟨hfd, hm⟩ hmeta⟩
          rw [mmap_relay_plain _ _ _ _ _ rl hnet hfind hret hmeta] at h
          obtain ⟨x, hx, rfl⟩ := Option.map_eq_some'.mp h
          simp only [mmap_end_ret, mmap_end_trace, after_ret, after_trace] at hr ⊢
          refine loop_case _ _ _ x _ _ [] ?_ (emitted_unlock_at_end _ _) hx hr
          rw [hf]
          rfl
      · rw [mmap_relay_query_fails _ _ _ _ _ rl hnet hfind hret] at h
        cases h
        simp only [mmap_end_ret] at hr
        omega

theorem count_lock_append (a b : List Event) :
    count_lock (a ++ b) = count_lock a + count_lock b := by
  simp [count_lock, List.countP_append]

theorem count_unlock_append (a b : List Event) :
    count_unlock (a ++ b) = count_unlock a + count_unlock b := by
  simp [count_unlock, List.countP_append]

theorem count_lock_writes (site : WriteSite) (fd : Int) (buf : List Nat) (l : List SysRes) :
    count_lock (l.map (Event.write site fd buf)) = 0 := by
  induction l with
  | nil => rfl
  | cons a t ih => simp [count_lock, List.countP_cons]

theorem count_unlock_writes (site : WriteSite) (fd : Int) (buf : List Nat)
    (l : List SysRes) : count_unlock (l.map (Event.write site fd buf)) = 0 := by
  induction l with
  | nil => rfl
  | cons a t ih => simp [count_unlock, List.countP_cons]

/-- The payload loop neither locks nor unlocks. -/
theorem mmap_write_loop_no_lock (relayd : Bool) (outfd orig_offset : Int) :
    ∀ (script : List SysRes) (stream : lttng_consumer_stream) (len mmap_offset : Nat)
      (written : Int) (r : MmapResult),
      mmap_write_loop relayd outfd orig_offset stream len mmap_offset written script = some r →
      count_lock r.trace = 0 ∧ count_unlock r.trace = 0 ∧
      r.stream.metadata_flag = stream.metadata_flag := by
  intro script
  induction script with
  | nil =>
    intro stream len mmap_offset written r h
    by_cases hlen : len = 0
    · subst hlen
      rw [mmap_write_loop_zero] at h
      cases h
      exact ⟨rfl, rfl, rfl⟩
    · rw [mmap_write_loop_nil _ _ _ _ _ _ _ hlen] at h
      cases h
  | cons a rest ih =>
    intro stream len mmap_offset written r h
    by_cases hlen : len = 0
    · subst hlen
      rw [mmap_write_loop_zero] at h
      cases h
      exact ⟨rfl, rfl, rfl⟩
    · rw [mmap_write_loop_cons _ _ _ _ _ _ _ _ _ hlen] at h
      split_ifs at h
      all_goals first
        | (cases h; exact ⟨rfl, rfl, rfl⟩)
        | (obtain ⟨x, hx, rfl⟩ := Option.map_eq_some'.mp h
           obtain ⟨h1, h2, h3⟩ := ih _ _ _ _ x hx
           refine ⟨?_, ?_, ?_⟩
           · rw [after_trace, count_lock_append, h1]
             rfl
           · rw [after_trace, count_unlock_append, h2]
             rfl
           · rw [after_stream, h3])

/-- Locks and unlocks of the control-socket mutex in a call of the transfer.
A stream that is not a metadata stream, or whose relay peer is not looked up
or not found, neither locks nor unlocks.  A metadata stream whose relay peer
exists unlocks once on every path, and locks once when the read-offset query
succeeds but not at all when it fails. -/
theorem mmap_lock_balance (data : lttng_consumer_global_data) (env : MmapEnv)
    (stream : lttng_consumer_stream) (len : Nat) (script : List SysRes) (r : MmapResult)
    (h : lttng_ustconsumer_on_read_subbuffer_mmap data env stream len script = some r) :
    (stream.metadata_flag = false → count_lock r.trace = 0 ∧ count_unlock r.trace = 0) ∧
    (stream.net_seq_idx = -1 → count_lock r.trace = 0 ∧ count_unlock r.trace = 0) ∧
    (consumer_find_relayd data stream.net_seq_idx = none →
      count_lock r.trace = 0 ∧ count_unlock r.trace = 0) ∧
    (∀ rl, stream.metadata_flag = true → stream.net_seq_idx ≠ -1 →
      consumer_find_relayd data stream.net_seq_idx = some rl →
      count_unlock r.trace = 1 ∧
      count_lock r.trace = if env.get_mmap_read_offset_ret = 0 then 1 else 0) := by
  by_cases hnet : stream.net_seq_idx = -1
  · have hzero : count_lock r.trace = 0 ∧ count_unlock r.trace = 0 := by
      by_cases hret : env.get_mmap_read_offset_ret = 0
      · rw [mmap_local _ _ _ _ _ hnet hret] at h
        obtain ⟨x, hx, rfl⟩ := Option.map_eq_some'.mp h
        obtain ⟨h1, h2, _⟩ := mmap_write_loop_no_lock _ _ _ _ _ _ _ _ x hx
        simp only [mmap_end_trace, after_trace, count_lock_append, count_unlock_append, h1, h2,
          unlock_at_end_none]
        exact ⟨rfl, rfl⟩
      · rw [mmap_local_query_fails _ _ _ _ _ hnet hret] at h
        cases h
        exact ⟨rfl, rfl⟩
    exact ⟨fun _ => hzero, fun _ => hzero, fun _ => hzero, fun _ _ hn => absurd hnet hn⟩
  · cases hfind : consumer_find_relayd data stream.net_seq_idx with
    | none =>
      rw [mmap_peer_missing _ _ _ _ _ hnet hfind] at h
      cases h
      exact ⟨fun _ => ⟨rfl, rfl⟩, fun _ => ⟨rfl, rfl⟩, fun _ => ⟨rfl, rfl⟩,
        fun _ _ _ hf => by cases hf⟩
    | some rl =>
      have hmain : (stream.metadata_flag = false →
            count_lock r.trace = 0 ∧ count_unlock r.trace = 0) ∧
          (stream.metadata_flag = true → count_unlock r.trace = 1 ∧
            count_lock r.trace = if env.get_mmap_read_offset_ret = 0 then 1 else 0) := by
        by_cases hret : env.get_mmap_read_offset_ret = 0
        · by_cases hmeta :
              0 ≤ env.handle_stream_before_relayd_ret ∧ stream.metadata_flag = true
          · rw [mmap_relay_metadata _ _ _ _ _ rl hnet hfind hret hmeta.1 hmeta.2] at h
            refine ⟨fun hf => absurd (hmeta.2.symm.trans hf) (by decide), fun _ => ?_⟩
            cases hw : write_retry script with
            | none => rw [hw] at h; cases h
            | some p =>
              obtain ⟨tries, a, rest⟩ := p
              rw [hw] at h
              simp only at h
              by_cases hneg : a.ret < 0
              · rw [if_pos hneg] at h
                cases h
                simp only [mmap_end_trace, count_lock_append, count_unlock_append,
                  count_lock_writes, count_unlock_writes, hmeta.2, hret, if_true]
                exact ⟨rfl, rfl⟩
              · rw [if_neg hneg] at h
                obtain ⟨x, hx, rfl⟩ := Option.map_eq_some'.mp h
                obtain ⟨h1, h2, h3⟩ := mmap_write_loop_no_lock _ _ _ _ _ _ _ _ x hx
                simp only [mmap_end_trace, mmap_end_stream, after_trace, after_stream,
                  count_lock_append, count_unlock_append, count_lock_writes,
                  count_unlock_writes, h1, h2, h3, hmeta.2, hret, if_true]
                exact ⟨rfl, rfl⟩
          · rw [mmap_relay_plain _ _ _ _ _ rl hnet hfind hret hmeta] at h
            obtain ⟨x, hx, rfl⟩ := Option.map_eq_some'.mp h
            obtain ⟨h1, h2, h3⟩ := mmap_write_loop_no_lock _ _ _ _ _ _ _ _ x hx
            simp only [mmap_end_trace, mmap_end_stream, after_trace, after_stream,
              count_lock_append, count_unlock_append, h1, h2, h3, hret, if_true]
            cases hm : stream.metadata_flag with
            | false => exact ⟨fun _ => ⟨rfl, rfl⟩, fun hf => absurd hf (by decide)⟩
            | true => exact ⟨fun hf => absurd hf (by decide), fun _ => ⟨rfl, rfl⟩⟩
        · rw [mmap_relay_query_fails _ _ _ _ _ rl hnet hfind hret] at h
          cases h
          simp only [mmap_end_trace, count_lock_append, count_unlock_append, hret, if_false]
          cases hm : stream.metadata_flag with
          | false => exact ⟨fun _ => ⟨rfl, rfl⟩, fun hf => absurd hf (by decide)⟩
          | true => exact ⟨fun hf => absurd hf (by decide), fun _ => ⟨rfl, rfl⟩⟩
      exact ⟨hmain.1, fun hn => absurd hn hnet, fun hf => Option.noConfusion hf,
        fun _ hm _ _ => hmain.2 hm⟩

/-! ## The drain cycle without a sub-buffer -/

/-- When `ustctl_get_next_subbuf` returns a non-zero code, the part of the
cycle after the wait ends at once: nothing is written, the stream is left as
it was, and the value returned is the negation of the local `ret`. -/
theorem read_subbuffer_next_no_subbuf
    (transfer : lttng_consumer_stream → Nat → Option MmapResult) (env : ReadEnv)
    (stream : lttng_consumer_stream) (ret : Int) (herr : env.get_next_subbuf_err ≠ 0) :
    read_subbuffer_next transfer env stream ret =
      some ⟨Exit.returned (int_of_long (-ret)), stream,
        [Event.get_next_subbuf env.get_next_subbuf_err]⟩ := by
  unfold read_subbuffer_next
  simp only [if_pos herr]

/-- When `ustctl_get_next_subbuf` returns a non-zero code, every run of the
drain cycle either stops on a failed wait (the `read` returned -1, which is
the value returned, and the adapter is not called), or calls the adapter as
its last action and returns 0, whatever the code was; in both cases the
stream is left as it was and nothing is written or put back. -/
theorem read_subbuffer_no_subbuf
    (transfer : lttng_consumer_stream → Nat → Option MmapResult) (env : ReadEnv)
    (stream : lttng_consumer_stream) (reads : List SysRes) (res : ReadResult)
    (herr : env.get_next_subbuf_err ≠ 0)
    (h : lttng_ustconsumer_read_subbuffer transfer env stream reads = some res) :
    res.stream = stream ∧ count_put res.trace = 0 ∧ emitted res.trace = [] ∧
    ((res.exit = Exit.returned (-1) ∧ without_reads res.trace = []) ∨
      (res.exit = Exit.returned 0 ∧
        without_reads res.trace = [Event.get_next_subbuf env.get_next_subbuf_err])) := by
  have hzero : int_of_long (-(0 : Int)) = 0 := by decide
  have hem : ∀ l : List SysRes,
      emitted (l.map (Event.read_wait_fd stream.wait_fd)) = [] := by
    intro l
    induction l with
    | nil => rfl
    | cons a t ih => simpa [emitted, Event.accepted] using ih
  unfold lttng_ustconsumer_read_subbuffer at h
  simp only [read_subbuffer_next_no_subbuf transfer env stream 0 herr, hzero] at h
  by_cases hh : stream.hangup_flush_done = true
  · rw [if_neg (by simpa using hh)] at h
    cases h
    exact ⟨rfl, rfl, rfl, Or.inr ⟨rfl, rfl⟩⟩
  · rw [if_pos (by simpa using hh)] at h
    cases hr : read_retry reads with
    | none => rw [hr] at h; cases h
    | some p =>
      obtain ⟨tries, r⟩ := p
      rw [hr] at h
      simp only at h
      by_cases hm : r.ret = -1
      · rw [if_pos hm] at h
        cases h
        refine ⟨rfl, count_put_reads _ _, hem _, Or.inl ⟨?_, ?_⟩⟩
        · simp only [hm]
          decide
        · have := without_reads_reads stream.wait_fd (tries ++ [r]) []
          simpa using this
      · rw [if_neg hm] at h
        cases h
        refine ⟨rfl, ?_, ?_, Or.inr ⟨rfl, ?_⟩⟩
        · rw [count_put_append, count_put_reads]
          rfl
        · rw [emitted_append, hem]
          rfl
        · exact without_reads_reads stream.wait_fd (tries ++ [r]) _

/-! ## Claims -/

/-- C1, counterexample.  Three calls with `len = 4` whose result is neither 4
nor negative: a write error after a partial write of 2 bytes returns 2; a
relay peer that is not found returns 0; a write that reports 10 bytes
returns 10. -/
theorem mmap_returns_len_or_negative_counterexample :
    (∃ r, lttng_ustconsumer_on_read_subbuffer_mmap ex_data_empty ex_env ex_stream_local 4
        [⟨2, 0⟩, write_eio] = some r ∧ r.ret = 2 ∧ ¬ (r.ret = 4 ∨ r.ret < 0)) ∧
    (∃ r, lttng_ustconsumer_on_read_subbuffer_mmap ex_data_empty ex_env ex_stream_relay 4
        [⟨4, 0⟩] = some r ∧ r.ret = 0 ∧ ¬ (r.ret = 4 ∨ r.ret < 0)) ∧
    (∃ r, lttng_ustconsumer_on_read_subbuffer_mmap ex_data_empty ex_env ex_stream_local 4
        [⟨10, 0⟩] = some r ∧ r.ret = 10 ∧ ¬ (r.ret = 4 ∨ r.ret < 0)) := by
  refine ⟨⟨_, rfl, ?_, ?_⟩, ⟨_, rfl, ?_, ?_⟩, ⟨_, rfl, ?_, ?_⟩⟩ <;> decide

/-- C1, as amended.  For every stream, every `len` and every script of
`write` answers, with a read-offset query that answers 0 or a negative code:
the transfer returns once the script is followed by a write that fails for
good, and whenever it returns, the value is exactly `len`, or negative, or 0
with the relay peer of a network stream not found, or a count strictly between
0 and `len` after a payload write failed, or a count above `len` after a
payload write reported more bytes than it was given. -/
theorem mmap_returns_len_or_negative_amended (data : lttng_consumer_global_data)
    (env : MmapEnv) (stream : lttng_consumer_stream) (len : Nat) (script : List SysRes)
    (hq : env.get_mmap_read_offset_ret ≤ 0) :
    (∃ r, lttng_ustconsumer_on_read_subbuffer_mmap data env stream len
      (script ++ [write_eio]) = some r) ∧
    ∀ r, lttng_ustconsumer_on_read_subbuffer_mmap data env stream len script = some r →
      r.ret = len ∨ r.ret < 0 ∨
      (r.ret = 0 ∧ stream.net_seq_idx ≠ -1 ∧
        consumer_find_relayd data stream.net_seq_idx = none) ∨
      (0 < r.ret ∧ r.ret < len ∧ payload_write_failed r.trace = true) ∨
      ((len : Int) < r.ret ∧ payload_over_reported r.trace = true) :=
  ⟨mmap_returns data env stream len script,
    fun r h => mmap_ret_cases data env stream len script r hq h⟩

/-- C1, witness: the amended statement at the local stream, `len = 4`, a
write of 2 bytes followed by a write that fails for good. -/
theorem mmap_returns_len_or_negative_witness :
    ex_env.get_mmap_read_offset_ret ≤ 0 ∧
    ((∃ r, lttng_ustconsumer_on_read_subbuffer_mmap ex_data_empty ex_env ex_stream_local 4
      ([⟨2, 0⟩, write_eio] ++ [write_eio]) = some r) ∧
    ∀ r, lttng_ustconsumer_on_read_subbuffer_mmap ex_data_empty ex_env ex_stream_local 4
        [⟨2, 0⟩, write_eio] = some r →
      r.ret = (4 : Nat) ∨ r.ret < 0 ∨
      (r.ret = 0 ∧ ex_stream_local.net_seq_idx ≠ -1 ∧
        consumer_find_relayd ex_data_empty ex_stream_local.net_seq_idx = none) ∨
      (0 < r.ret ∧ r.ret < (4 : Nat) ∧ payload_write_failed r.trace = true) ∨
      (((4 : Nat) : Int) < r.ret ∧ payload_over_reported r.trace = true)) :=
  ⟨by decide, mmap_returns_len_or_negative_amended ex_data_empty ex_env ex_stream_local 4
    [⟨2, 0⟩, write_eio] (by decide)⟩

/-- C2.  For every run of `lttng_ustconsumer_read_subbuffer`, with a transfer
that does not itself call the ring-buffer adapter: `ustctl_get_next_subbuf`
returns 0 at most once and `ustctl_put_next_subbuf` is never called more
often than that; in every run that returns it is called exactly as often
(once if the sub-buffer was obtained, not at all otherwise); when it is called
the transfer ran first, whatever it returned, and the put is the last action.
Runs that return exist: when the asserted conditions hold (mmap output,
padded-size query and put returning 0) and the transfer returns, the cycle
returns as soon as the wait on the descriptor is answered by something else
than an interruption. -/
theorem read_subbuffer_put_next_once
    (transfer : lttng_consumer_stream → Nat → Option MmapResult) (env : ReadEnv)
    (stream : lttng_consumer_stream) (reads : List SysRes)
    (htr : ∀ s n x, transfer s n = some x →
      count_put x.trace = 0 ∧ count_get_ok x.trace = 0) :
    (∀ res, lttng_ustconsumer_read_subbuffer transfer env stream reads = some res →
      count_put res.trace ≤ count_get_ok res.trace ∧ count_get_ok res.trace ≤ 1 ∧
      (∀ v, res.exit = Exit.returned v → count_put res.trace = count_get_ok res.trace) ∧
      (count_put res.trace = 1 → ∃ pre x, transfer stream env.len = some x ∧
        res.trace = pre ++ x.trace ++ [Event.put_next_subbuf env.put_next_subbuf_err] ∧
        count_put pre = 0)) ∧
    (∀ fin : SysRes, ¬ (fin.ret = -1 ∧ fin.errno = EINTR) →
      stream.output = lttng_event_output.LTTNG_EVENT_MMAP →
      env.get_padded_subbuf_size_err = 0 → env.put_next_subbuf_err = 0 →
      (∃ x, transfer stream env.len = some x) →
      ∃ res v, lttng_ustconsumer_read_subbuffer transfer env stream (reads ++ [fin]) =
        some res ∧ res.exit = Exit.returned v) :=
  ⟨fun res h => read_subbuffer_put transfer env stream reads htr res h,
    fun fin hfin hout hpad hput hx =>
      read_subbuffer_returns transfer env stream reads fin hfin hout hpad hput hx⟩

/-- C2, witness: the statement for the UST transfer on the local stream, the
wait interrupted once; that run returns 4 and puts the sub-buffer back
once. -/
theorem read_subbuffer_put_next_once_witness :
    (∀ s n x, ex_transfer s n = some x →
      count_put x.trace = 0 ∧ count_get_ok x.trace = 0) ∧
    (lttng_ustconsumer_read_subbuffer ex_transfer ex_read_env ex_stream_local
      [eintr, ⟨1, 0⟩]).map (fun r => (r.exit, count_put r.trace, count_get_ok r.trace)) =
      some (Exit.returned 4, 1, 1) ∧
    ((∀ res, lttng_ustconsumer_read_subbuffer ex_transfer ex_read_env ex_stream_local
        [eintr, ⟨1, 0⟩] = some res →
      count_put res.trace ≤ count_get_ok res.trace ∧ count_get_ok res.trace ≤ 1 ∧
      (∀ v, res.exit = Exit.returned v → count_put res.trace = count_get_ok res.trace) ∧
      (count_put res.trace = 1 → ∃ pre x,
        ex_transfer ex_stream_local ex_read_env.len = some x ∧
        res.trace = pre ++ x.trace ++
          [Event.put_next_subbuf ex_read_env.put_next_subbuf_err] ∧
        count_put pre = 0)) ∧
    (∀ fin : SysRes, ¬ (fin.ret = -1 ∧ fin.errno = EINTR) →
      ex_stream_local.output = lttng_event_output.LTTNG_EVENT_MMAP →
      ex_read_env.get_padded_subbuf_size_err = 0 → ex_read_env.put_next_subbuf_err = 0 →
      (∃ x, ex_transfer ex_stream_local ex_read_env.len = some x) →
      ∃ res v, lttng_ustconsumer_read_subbuffer ex_transfer ex_read_env ex_stream_local
        ([eintr, ⟨1, 0⟩] ++ [fin]) = some res ∧ res.exit = Exit.returned v)) :=
  ⟨fun s n x h => mmap_no_ring ex_data_empty ex_env s n [⟨4, 0⟩] x h, by decide,
    read_subbuffer_put_next_once ex_transfer ex_read_env ex_stream_local [eintr, ⟨1, 0⟩]
      (fun s n x h => mmap_no_ring ex_data_empty ex_env s n [⟨4, 0⟩] x h)⟩

/-- C3, failing input.  Metadata stream of relay peer 3 with stream id
`0x0102030405060708`, `len = 4`; the `write` of the identifier returns 3 (a
short write, not a failure) and the payload `write` returns 4.  The call
returns 4 as for a full success, but the sink received the first 3 bytes of
the identifier followed by the payload, not the 8 bytes of the identifier
followed by the payload. -/
theorem mmap_metadata_short_id_write :
    ∃ r, lttng_ustconsumer_on_read_subbuffer_mmap ex_data_relay ex_env ex_stream_metadata 4
        [⟨3, 0⟩, ⟨4, 0⟩] = some r ∧
      r.ret = 4 ∧
      emitted r.trace = [1, 2, 3, 0, 1, 2, 3] ∧
      htobe64 ex_stream_metadata.relayd_stream_id ++ mmap_buf ex_stream_metadata 0 4 =
        [1, 2, 3, 4, 5, 6, 7, 8, 0, 1, 2, 3] ∧
      emitted r.trace ≠
        htobe64 ex_stream_metadata.relayd_stream_id ++ mmap_buf ex_stream_metadata 0 4 := by
  refine ⟨_, rfl, ?_, ?_, ?_, ?_⟩ <;> decide

/-- C4.  Interrupted answers (-1 with `errno == EINTR`) put anywhere in the
script of `write` answers change neither the value returned by
`lttng_ustconsumer_on_read_subbuffer_mmap`, nor the bytes emitted to the
sink, nor the final `out_fd_offset`, and the run returns on the one script
exactly when it returns on the other; put anywhere in the script of `read`
answers of the wait descriptor, they change neither how
`lttng_ustconsumer_read_subbuffer` ends nor any of its other actions. -/
theorem eintr_is_transparent (data : lttng_consumer_global_data) (env : MmapEnv)
    (stream : lttng_consumer_stream) (len : Nat) (ks : List Nat) (script : List SysRes)
    (transfer : lttng_consumer_stream → Nat → Option MmapResult) (renv : ReadEnv)
    (reads : List SysRes) :
    (lttng_ustconsumer_on_read_subbuffer_mmap data env stream len
      (insert_eintr ks script)).map MmapResult.observed =
    (lttng_ustconsumer_on_read_subbuffer_mmap data env stream len script).map
      MmapResult.observed ∧
    (lttng_ustconsumer_read_subbuffer transfer renv stream
      (insert_eintr ks reads)).map ReadResult.observed =
    (lttng_ustconsumer_read_subbuffer transfer renv stream reads).map
      ReadResult.observed :=
  ⟨mmap_insert_eintr data env stream len ks script,
    read_subbuffer_observed_congr transfer renv stream _ _
      (read_retry_insert_eintr reads ks)⟩

/-- C4, at a concrete input: a transfer of 4 bytes in two writes of 3 and 1,
interrupted once before the first write and twice before the second, returns
4, emits the 4 bytes once each and ends at offset 4, as the run that is not
interrupted does. -/
theorem eintr_is_transparent_example :
    insert_eintr [1, 2] [⟨3, 0⟩, ⟨1, 0⟩] = [eintr, ⟨3, 0⟩, eintr, eintr, ⟨1, 0⟩] ∧
    (lttng_ustconsumer_on_read_subbuffer_mmap ex_data_empty ex_env ex_stream_local 4
      (insert_eintr [1, 2] [⟨3, 0⟩, ⟨1, 0⟩])).map MmapResult.observed =
      some (4, [0, 1, 2, 3], 4) ∧
    (lttng_ustconsumer_on_read_subbuffer_mmap ex_data_empty ex_env ex_stream_local 4
      [⟨3, 0⟩, ⟨1, 0⟩]).map MmapResult.observed = some (4, [0, 1, 2, 3], 4) := by
  refine ⟨?_, ?_, ?_⟩ <;> decide

/-- C5, failing input.  Metadata stream of relay peer 3 whose read-offset
query fails with -22: the call returns -22 having unlocked the control-socket
mutex of the peer once without ever locking it. -/
theorem mmap_unlock_without_lock :
    ∃ r, lttng_ustconsumer_on_read_subbuffer_mmap ex_data_relay ex_env_offset_fails
        ex_stream_metadata 4 [⟨4, 0⟩] = some r ∧
      r.ret = -22 ∧
      r.trace = [Event.get_mmap_read_offset (-22), Event.mutex_unlock 3] ∧
      count_lock r.trace = 0 ∧ count_unlock r.trace = 1 := by
  refine ⟨_, rfl, ?_, ?_, ?_, ?_⟩ <;> decide

/-- C6, counterexample.  Three messages read whole, other than STOP, after
which the dispatcher returns without any write to the wake-up pipe although
the script offers one: ADD_CHANNEL (the channel is registered, 0 returned),
ADD_RELAYD_SOCKET (the peer is registered, 0 returned) and UPDATE_STREAM
(`-ENOSYS` returned). -/
theorem recv_cmd_wakeup_counterexample :
    (∃ res, lttng_ustconsumer_recv_cmd ex_ctx ex_recv_env_channel ex_data_empty [⟨1, 0⟩] =
        some res ∧ res.exit = Exit.returned 0 ∧ res.data.channel_ht.length = 1 ∧
      wakeup_writes res.trace = []) ∧
    (∃ res, lttng_ustconsumer_recv_cmd ex_ctx ex_recv_env_relayd ex_data_empty [⟨1, 0⟩] =
        some res ∧ res.exit = Exit.returned 0 ∧ res.data.relayd_ht.length = 1 ∧
      wakeup_writes res.trace = []) ∧
    (∃ res, lttng_ustconsumer_recv_cmd ex_ctx ex_recv_env_update ex_data_empty [⟨1, 0⟩] =
        some res ∧ res.exit = Exit.returned (-38) ∧ wakeup_writes res.trace = []) := by
  refine ⟨⟨_, rfl, ?_, ?_, ?_⟩, ⟨_, rfl, ?_, ?_, ?_⟩, ⟨_, rfl, ?_, ?_⟩⟩ <;> decide

/-- C6, as amended.  For every message read whole:
(1) of kind STOP, ADD_RELAYD_SOCKET, ADD_CHANNEL or UPDATE_STREAM, or of kind
ADD_STREAM when the poll fails, the two descriptors are not received or the
output mode is not mmap, the run ends without any write to the wake-up pipe;
(2) of an unknown kind, or of kind ADD_STREAM once the poll succeeded, both
descriptors were received and the output mode is mmap, whether the handling
succeeds or fails, every run that ends returns 0 and its last actions are the
writes of one byte to `consumer_poll_pipe[1]`: one write that is not
interrupted, after the writes that were interrupted, if any; and the run ends
as soon as a write is answered by something else than an interruption. -/
theorem recv_cmd_wakeup (ctx : lttng_consumer_local_data) (env : RecvEnv)
    (data : lttng_consumer_global_data) (hwhole : env.recv_ret = env.sizeof_msg) :
    ((env.msg.cmd_type = lttng_consumer_command.LTTNG_CONSUMER_STOP ∨
      env.msg.cmd_type = lttng_consumer_command.LTTNG_CONSUMER_ADD_RELAYD_SOCKET ∨
      env.msg.cmd_type = lttng_consumer_command.LTTNG_CONSUMER_ADD_CHANNEL ∨
      env.msg.cmd_type = lttng_consumer_command.LTTNG_CONSUMER_UPDATE_STREAM ∨
      (env.msg.cmd_type = lttng_consumer_command.LTTNG_CONSUMER_ADD_STREAM ∧
        (env.poll_socket_ret < 0 ∨ env.recv_fds_ret ≠ 2 * sizeof_int ∨
          env.msg.stream_output ≠ lttng_event_output.LTTNG_EVENT_MMAP))) →
      ∀ script, ∃ res, lttng_ustconsumer_recv_cmd ctx env data script = some res ∧
        wakeup_writes res.trace = []) ∧
    (((∃ n, env.msg.cmd_type = lttng_consumer_command.other n) ∨
      (env.msg.cmd_type = lttng_consumer_command.LTTNG_CONSUMER_ADD_STREAM ∧
        0 ≤ env.poll_socket_ret ∧ env.recv_fds_ret = 2 * sizeof_int ∧
        env.msg.stream_output = lttng_event_output.LTTNG_EVENT_MMAP)) →
      (∀ script res, lttng_ustconsumer_recv_cmd ctx env data script = some res →
        res.exit = Exit.returned 0 ∧
        ∃ tr tries fin, wakeup_writes tr = [] ∧
          res.trace = tr ++ (tries ++ [fin]).map
            (Event.write WriteSite.wakeup ctx.consumer_poll_pipe_1 [0]) ∧
          wakeup_writes res.trace =
            (tries ++ [fin]).map (fun r => (ctx.consumer_poll_pipe_1, [0], r)) ∧
          (∀ t ∈ tries, interrupted t = true) ∧ interrupted fin = false) ∧
      (∀ script fin, interrupted fin = false →
        ∃ res, lttng_ustconsumer_recv_cmd ctx env data (script ++ [fin]) = some res)) := by
  refine ⟨?_, ?_⟩
  · intro hcmd script
    rcases hcmd with h | h | h | h | ⟨h, hearly⟩
    · exact recv_cmd_nosignal ctx env data script hwhole (Or.inl h)
    · exact recv_cmd_nosignal ctx env data script hwhole (Or.inr (Or.inl h))
    · exact recv_cmd_nosignal ctx env data script hwhole (Or.inr (Or.inr (Or.inl h)))
    · exact recv_cmd_nosignal ctx env data script hwhole (Or.inr (Or.inr (Or.inr h)))
    · rw [recv_cmd_add_stream ctx env data script hwhole h]
      exact recv_add_stream_early ctx env data script hearly
  intro hcmd
  have hend : ∃ data1 tr, wakeup_writes tr = [] ∧
      ∀ script, lttng_ustconsumer_recv_cmd ctx env data script =
        recv_cmd_end ctx data1 tr script := by
    rcases hcmd with ⟨n, hn⟩ | ⟨hc, hpoll, hfds, hout⟩
    · exact ⟨data, [], rfl, fun script => recv_cmd_other ctx env data script n hwhole hn⟩
    · obtain ⟨data1, tr, h1, h2⟩ := recv_add_stream_end ctx env data hpoll hfds hout
      exact ⟨data1, tr, h1, fun script => by
        rw [recv_cmd_add_stream ctx env data script hwhole hc, h2]⟩
  obtain ⟨data1, tr, h1, h2⟩ := hend
  refine ⟨?_, ?_⟩
  · intro script res h
    rw [h2] at h
    obtain ⟨e1, _, tries, fin, e3, e4, e5, e6⟩ := recv_cmd_end_spec ctx data1 tr script res h1 h
    exact ⟨e1, tr, tries, fin, h1, e3, e4, e5, e6⟩
  · intro script fin hfin
    rw [h2]
    exact recv_cmd_end_returns ctx data1 tr script fin hfin

/-- C6, witness: the amended statement for the ADD_STREAM message of the
concrete input, read whole; with the wake-up write interrupted once the run
returns 0 after two writes to descriptor 6, the second one not interrupted. -/
theorem recv_cmd_wakeup_witness :
    ex_recv_env.recv_ret = ex_recv_env.sizeof_msg ∧
    (lttng_ustconsumer_recv_cmd ex_ctx ex_recv_env ex_data_empty [eintr, ⟨1, 0⟩]).map
      (fun r => (r.exit, wakeup_writes r.trace)) =
      some (Exit.returned 0, [(6, [0], eintr), (6, [0], ⟨1, 0⟩)]) ∧
    (((ex_recv_env.msg.cmd_type = lttng_consumer_command.LTTNG_CONSUMER_STOP ∨
      ex_recv_env.msg.cmd_type = lttng_consumer_command.LTTNG_CONSUMER_ADD_RELAYD_SOCKET ∨
      ex_recv_env.msg.cmd_type = lttng_consumer_command.LTTNG_CONSUMER_ADD_CHANNEL ∨
      ex_recv_env.msg.cmd_type = lttng_consumer_command.LTTNG_CONSUMER_UPDATE_STREAM ∨
      (ex_recv_env.msg.cmd_type = lttng_consumer_command.LTTNG_CONSUMER_ADD_STREAM ∧
        (ex_recv_env.poll_socket_ret < 0 ∨ ex_recv_env.recv_fds_ret ≠ 2 * sizeof_int ∨
          ex_recv_env.msg.stream_output ≠ lttng_event_output.LTTNG_EVENT_MMAP))) →
      ∀ script, ∃ res, lttng_ustconsumer_recv_cmd ex_ctx ex_recv_env ex_data_empty script =
          some res ∧ wakeup_writes res.trace = []) ∧
    (((∃ n, ex_recv_env.msg.cmd_type = lttng_consumer_command.other n) ∨
      (ex_recv_env.msg.cmd_type = lttng_consumer_command.LTTNG_CONSUMER_ADD_STREAM ∧
        0 ≤ ex_recv_env.poll_socket_ret ∧ ex_recv_env.recv_fds_ret = 2 * sizeof_int ∧
        ex_recv_env.msg.stream_output = lttng_event_output.LTTNG_EVENT_MMAP)) →
      (∀ script res, lttng_ustconsumer_recv_cmd ex_ctx ex_recv_env ex_data_empty script =
          some res →
        res.exit = Exit.returned 0 ∧
        ∃ tr tries fin, wakeup_writes tr = [] ∧
          res.trace = tr ++ (tries ++ [fin]).map
            (Event.write WriteSite.wakeup ex_ctx.consumer_poll_pipe_1 [0]) ∧
          wakeup_writes res.trace =
            (tries ++ [fin]).map (fun r => (ex_ctx.consumer_poll_pipe_1, [0], r)) ∧
          (∀ t ∈ tries, interrupted t = true) ∧ interrupted fin = false) ∧
      (∀ script fin, interrupted fin = false →
        ∃ res, lttng_ustconsumer_recv_cmd ex_ctx ex_recv_env ex_data_empty
          (script ++ [fin]) = some res))) :=
  ⟨by decide, by decide, recv_cmd_wakeup ex_ctx ex_recv_env ex_data_empty (by decide)⟩

/-- C7, counterexample.  An ADD_STREAM message read whole, both descriptors
received, whose `net_index` 5 is not -1 and matches no relay peer of the
(empty) registry, in splice output mode: the assertion of line 347 fails, so
the dispatcher does not return 0. -/
theorem recv_add_stream_unknown_relay_counterexample :
    ex_recv_env_splice.msg.stream_net_index ≠ -1 ∧
    consumer_find_relayd ex_data_empty ex_recv_env_splice.msg.stream_net_index = none ∧
    ex_recv_env_splice.recv_fds_ret = 2 * sizeof_int ∧
    ∃ res, lttng_ustconsumer_recv_cmd ex_ctx ex_recv_env_splice ex_data_empty [⟨1, 0⟩] =
        some res ∧ res.exit = Exit.assert_failed ∧ res.exit ≠ Exit.returned 0 := by
  refine ⟨?_, ?_, ?_, _, rfl, ?_, ?_⟩ <;> decide

/-- C7, as amended.  For every ADD_STREAM message read whole, in mmap output
mode, whose `net_index` is not -1 and matches no relay peer of the registry,
once the poll succeeded and both descriptors were received: every run that
ends returns 0 with the stream, channel and relay registries as they were,
having called neither `relayd_add_stream` nor the hook `on_recv_stream`; and
the run ends as soon as the write to the wake-up pipe is answered by something
else than an interruption. -/
theorem recv_add_stream_unknown_relay_dropped (ctx : lttng_consumer_local_data)
    (env : RecvEnv) (data : lttng_consumer_global_data)
    (hwhole : env.recv_ret = env.sizeof_msg)
    (hcmd : env.msg.cmd_type = lttng_consumer_command.LTTNG_CONSUMER_ADD_STREAM)
    (hpoll : 0 ≤ env.poll_socket_ret) (hfds : env.recv_fds_ret = 2 * sizeof_int)
    (hout : env.msg.stream_output = lttng_event_output.LTTNG_EVENT_MMAP)
    (hnet : env.msg.stream_net_index ≠ -1)
    (hfind : consumer_find_relayd data env.msg.stream_net_index = none) :
    (∀ script res, lttng_ustconsumer_recv_cmd ctx env data script = some res →
      res.exit = Exit.returned 0 ∧ res.data = data ∧
      calls_relayd_add_stream res.trace = false ∧ calls_on_recv_stream res.trace = false) ∧
    (∀ script fin, interrupted fin = false →
      ∃ res, lttng_ustconsumer_recv_cmd ctx env data (script ++ [fin]) = some res) := by
  obtain ⟨tr, h1, h2, h3, h4⟩ :=
    recv_add_stream_unknown_relay ctx env data hpoll hfds hout hnet hfind
  refine ⟨?_, ?_⟩
  · intro script res h
    rw [recv_cmd_add_stream ctx env data script hwhole hcmd, h4] at h
    obtain ⟨e1, e2, tries, fin, e3, _, _, _⟩ := recv_cmd_end_spec ctx data tr script res h1 h
    refine ⟨e1, e2, ?_, ?_⟩
    · rw [e3, calls_relayd_add_stream_wakeup, h2]
    · rw [e3, calls_on_recv_stream_wakeup, h3]
  · intro script fin hfin
    rw [recv_cmd_add_stream ctx env data (script ++ [fin]) hwhole hcmd, h4]
    exact recv_cmd_end_returns ctx data tr script fin hfin

/-- C7, witness: the amended statement for the ADD_STREAM message of the
concrete input (mmap output mode, `net_index` 5) and the empty registries;
that run frees the stream, writes once to the wake-up pipe and returns 0. -/
theorem recv_add_stream_unknown_relay_dropped_witness :
    (lttng_ustconsumer_recv_cmd ex_ctx ex_recv_env ex_data_empty [⟨1, 0⟩]).map
      (fun r => (r.exit, r.trace, r.data.stream_ht.length, r.data.channel_ht,
        r.data.relayd_ht)) =
      some (Exit.returned 0,
        [Event.poll_socket 0, Event.recv_fds 2 8, Event.free_stream 9,
          Event.write WriteSite.wakeup 6 [0] ⟨1, 0⟩], 0, [], []) ∧
    ((∀ script res, lttng_ustconsumer_recv_cmd ex_ctx ex_recv_env ex_data_empty script =
        some res →
      res.exit = Exit.returned 0 ∧ res.data = ex_data_empty ∧
      calls_relayd_add_stream res.trace = false ∧ calls_on_recv_stream res.trace = false) ∧
    (∀ script fin, interrupted fin = false →
      ∃ res, lttng_ustconsumer_recv_cmd ex_ctx ex_recv_env ex_data_empty (script ++ [fin]) =
        some res)) :=
  ⟨rfl, recv_add_stream_unknown_relay_dropped ex_ctx ex_recv_env ex_data_empty
    (by decide) (by decide) (by decide) (by decide) (by decide) (by decide) (by decide)⟩

/-- C8, failing input.  When the peer closes the socket the receive returns
0 and the dispatcher returns 0, the value it returns after a command it
handled; after a short read of 10 bytes it returns 10.  In both cases the
error is sent to the session daemon and the registries are left as they
were. -/
theorem recv_cmd_short_read_not_negative :
    (∃ r, lttng_ustconsumer_recv_cmd ex_ctx ex_recv_env_closed ex_data_relay [] = some r ∧
      r.exit = Exit.returned 0 ∧
      r.trace = [Event.send_error SendError.CONSUMERD_ERROR_RECV_FD] ∧
      r.data.relayd_ht = ex_data_relay.relayd_ht ∧ r.data.channel_ht = [] ∧
      r.data.stream_ht.length = 0) ∧
    (∃ r, lttng_ustconsumer_recv_cmd ex_ctx ex_recv_env_short ex_data_relay [] = some r ∧
      r.exit = Exit.returned 10 ∧
      r.trace = [Event.send_error SendError.CONSUMERD_ERROR_RECV_FD] ∧
      r.data.relayd_ht = ex_data_relay.relayd_ht ∧ r.data.channel_ht = [] ∧
      r.data.stream_ht.length = 0) ∧
    (∃ r, lttng_ustconsumer_recv_cmd ex_ctx
        { ex_recv_env with
          msg := { ex_msg_add_stream with cmd_type := lttng_consumer_command.other 99 } }
        ex_data_relay [⟨1, 0⟩] = some r ∧
      r.exit = Exit.returned 0) := by
  refine ⟨⟨_, rfl, ?_, ?_, ?_, ?_, ?_⟩, ⟨_, rfl, ?_, ?_, ?_, ?_, ?_⟩, ⟨_, rfl, ?_⟩⟩ <;> decide

/-- C9.  With a read-offset query that answers 0 or a negative code:
(1) for a local-file stream (`net_seq_idx = -1`) a call that returns `len`
leaves `out_fd_offset` at its former value plus `len`, its write-back hints
are exactly the ranges its writes filled, starting at the former offset, and
its last action is the sync of the trace file with the former offset;
(2) for a stream whose relay peer exists the stream, `out_fd_offset` included,
is unchanged, whatever the call returns;
(3) a second call on the stream that returns `len2` starts its hints at the
former offset plus `len` and ends at the former offset plus `len + len2`;
(4) such calls exist: a sink that accepts `len` bytes at once makes the call
return `len`. -/
theorem mmap_out_fd_offset (data : lttng_consumer_global_data) (env : MmapEnv)
    (stream : lttng_consumer_stream) (len : Nat) (script : List SysRes)
    (hq : env.get_mmap_read_offset_ret ≤ 0) :
    (stream.net_seq_idx = -1 →
      ∀ r, lttng_ustconsumer_on_read_subbuffer_mmap data env stream len script = some r →
      r.ret = len →
      r.stream.out_fd_offset = stream.out_fd_offset + len ∧
      hints r.trace = written_ranges stream.out_fd_offset r.trace ∧
      ∃ tr, r.trace = tr ++ [Event.sync_trace_file stream.out_fd_offset]) ∧
    (∀ rl, stream.net_seq_idx ≠ -1 →
      consumer_find_relayd data stream.net_seq_idx = some rl →
      ∀ r, lttng_ustconsumer_on_read_subbuffer_mmap data env stream len script = some r →
      r.stream.out_fd_offset = stream.out_fd_offset) ∧
    (stream.net_seq_idx = -1 →
      ∀ r, lttng_ustconsumer_on_read_subbuffer_mmap data env stream len script = some r →
      r.ret = len →
      ∀ (env2 : MmapEnv) (len2 : Nat) (script2 : List SysRes) (r2 : MmapResult),
      env2.get_mmap_read_offset_ret ≤ 0 →
      lttng_ustconsumer_on_read_subbuffer_mmap data env2 r.stream len2 script2 = some r2 →
      r2.ret = len2 →
      hints r2.trace = written_ranges (stream.out_fd_offset + len) r2.trace ∧
      r2.stream.out_fd_offset = stream.out_fd_offset + len + len2) ∧
    (stream.net_seq_idx = -1 → env.get_mmap_read_offset_ret = 0 →
      ∃ r, lttng_ustconsumer_on_read_subbuffer_mmap data env stream len [⟨len, 0⟩] =
        some r ∧ r.ret = len) := by
  refine ⟨?_, ?_, ?_, ?_⟩
  · intro hnet r h hr
    obtain ⟨e1, e2, e3, _⟩ := mmap_local_success data env stream len script r hq hnet h hr
    exact ⟨e1, e2, e3⟩
  · intro rl hnet hfind r h
    rw [mmap_relay_stream data env stream len script r rl hnet hfind h]
  · intro hnet r h hr env2 len2 script2 r2 hq2 h2 hr2
    obtain ⟨e1, _, _, e4⟩ := mmap_local_success data env stream len script r hq hnet h hr
    obtain ⟨f1, f2, _, _⟩ := mmap_local_success data env2 r.stream len2 script2 r2 hq2 e4 h2 hr2
    rw [e1] at f1 f2
    exact ⟨f2, f1⟩
  · intro hnet hret
    exact mmap_local_one_write data env stream len hnet hret

/-- C9, witness: the statement at the local stream with offset 0, `len = 4`
written in two writes of 3 and 1 bytes; that call returns 4, hints the ranges
(0, 3) and (3, 1) of descriptor 7 and ends at offset 4. -/
theorem mmap_out_fd_offset_witness :
    ex_env.get_mmap_read_offset_ret ≤ 0 ∧
    (lttng_ustconsumer_on_read_subbuffer_mmap ex_data_empty ex_env ex_stream_local 4
      [⟨3, 0⟩, ⟨1, 0⟩]).map (fun r => (r.ret, hints r.trace, r.stream.out_fd_offset)) =
      some (4, [(7, 0, 3), (7, 3, 1)], 4) ∧
    ((ex_stream_local.net_seq_idx = -1 →
      ∀ r, lttng_ustconsumer_on_read_subbuffer_mmap ex_data_empty ex_env ex_stream_local 4
        [⟨3, 0⟩, ⟨1, 0⟩] = some r →
      r.ret = (4 : Nat) →
      r.stream.out_fd_offset = ex_stream_local.out_fd_offset + (4 : Nat) ∧
      hints r.trace = written_ranges ex_stream_local.out_fd_offset r.trace ∧
      ∃ tr, r.trace = tr ++ [Event.sync_trace_file ex_stream_local.out_fd_offset]) ∧
    (∀ rl, ex_stream_local.net_seq_idx ≠ -1 →
      consumer_find_relayd ex_data_empty ex_stream_local.net_seq_idx = some rl →
      ∀ r, lttng_ustconsumer_on_read_subbuffer_mmap ex_data_empty ex_env ex_stream_local 4
        [⟨3, 0⟩, ⟨1, 0⟩] = some r →
      r.stream.out_fd_offset = ex_stream_local.out_fd_offset) ∧
    (ex_stream_local.net_seq_idx = -1 →
      ∀ r, lttng_ustconsumer_on_read_subbuffer_mmap ex_data_empty ex_env ex_stream_local 4
        [⟨3, 0⟩, ⟨1, 0⟩] = some r →
      r.ret = (4 : Nat) →
      ∀ (env2 : MmapEnv) (len2 : Nat) (script2 : List SysRes) (r2 : MmapResult),
      env2.get_mmap_read_offset_ret ≤ 0 →
      lttng_ustconsumer_on_read_subbuffer_mmap ex_data_empty env2 r.stream len2 script2 =
        some r2 →
      r2.ret = len2 →
      hints r2.trace = written_ranges (ex_stream_local.out_fd_offset + (4 : Nat)) r2.trace ∧
      r2.stream.out_fd_offset = ex_stream_local.out_fd_offset + (4 : Nat) + len2) ∧
    (ex_stream_local.net_seq_idx = -1 → ex_env.get_mmap_read_offset_ret = 0 →
      ∃ r, lttng_ustconsumer_on_read_subbuffer_mmap ex_data_empty ex_env ex_stream_local 4
        [⟨(4 : Nat), 0⟩] = some r ∧ r.ret = (4 : Nat))) :=
  ⟨by decide, by decide,
    mmap_out_fd_offset ex_data_empty ex_env ex_stream_local 4 [⟨3, 0⟩, ⟨1, 0⟩] (by decide)⟩

/-- C10, counterexample.  With `len = 4` a first write of 1 byte followed by
a write that reports 10 bytes makes the call return 11: a non-negative value
above `len` that counts the 10 bytes reported by the last write, not only the
1 byte counted before it. -/
theorem mmap_ret_at_most_len_counterexample :
    ∃ r, lttng_ustconsumer_on_read_subbuffer_mmap ex_data_empty ex_env ex_stream_local 4
        [⟨1, 0⟩, ⟨10, 0⟩] = some r ∧
      payload_results r.trace = [1, 10] ∧ r.ret = 11 ∧ 0 ≤ r.ret ∧
      ¬ (r.ret ≤ 4) ∧ r.ret ≠ 1 := by
  refine ⟨_, rfl, ?_, ?_, ?_, ?_, ?_⟩ <;> decide

/-- C10, as amended.  With a read-offset query that answers 0 or a negative
code, whenever the transfer returns a non-negative value, that value is the
sum of the non-negative answers of the payload writes of the call (the write
of the identifier is not counted); it is at most `len` unless a payload write
reported more bytes than it was given, and in that case the reported count is
included and the value is above `len`. -/
theorem mmap_ret_counts_payload (data : lttng_consumer_global_data) (env : MmapEnv)
    (stream : lttng_consumer_stream) (len : Nat) (script : List SysRes) (r : MmapResult)
    (hq : env.get_mmap_read_offset_ret ≤ 0)
    (h : lttng_ustconsumer_on_read_subbuffer_mmap data env stream len script = some r)
    (h0 : 0 ≤ r.ret) :
    r.ret = sum_nonneg (payload_results r.trace) ∧
    (payload_over_reported r.trace = false → r.ret ≤ len) ∧
    (payload_over_reported r.trace = true → (len : Int) < r.ret) := by
  obtain ⟨e1, e2⟩ := mmap_nonneg_ret data env stream len script r hq h h0
  refine ⟨e1, ?_, e2.mp⟩
  intro hf
  by_contra hc
  have : payload_over_reported r.trace = true := e2.mpr (by omega)
  rw [hf] at this
  cases this

/-- C10, witness: the amended statement at the metadata stream of relay peer
3, `len = 4`, the identifier written whole, then 3 bytes written and a write
failing for good; the call returns 3, the identifier not counted. -/
theorem mmap_ret_counts_payload_witness :
    ∃ r, lttng_ustconsumer_on_read_subbuffer_mmap ex_data_relay ex_env ex_stream_metadata 4
        [⟨8, 0⟩, ⟨3, 0⟩, write_eio] = some r ∧ r.ret = 3 ∧
      payload_results r.trace = [3, -1] ∧
      r.ret = sum_nonneg (payload_results r.trace) ∧
      (payload_over_reported r.trace = false → r.ret ≤ (4 : Nat)) ∧
      (payload_over_reported r.trace = true → ((4 : Nat) : Int) < r.ret) :=
  ⟨_, rfl, by decide, by decide,
    mmap_ret_counts_payload ex_data_relay ex_env ex_stream_metadata 4
      [⟨8, 0⟩, ⟨3, 0⟩, write_eio] _ (by decide) rfl (by decide)⟩

/-- C11, failing input.  The wait descriptor is read (1 byte), then
`ustctl_get_next_subbuf` returns -11: the cycle ends without writing and
without putting a sub-buffer back, as the claim says, but the value returned
is 0, not the positive value 11 that carries the adapter's error: line 531
negates the local `ret`, which is still 0, instead of `err`. -/
theorem read_subbuffer_masks_get_next_error :
    ex_read_env_no_subbuf.get_next_subbuf_err = -11 ∧
    ∃ res, lttng_ustconsumer_read_subbuffer ex_transfer ex_read_env_no_subbuf
        ex_stream_local [⟨1, 0⟩] = some res ∧
      res.trace = [Event.read_wait_fd 4 ⟨1, 0⟩, Event.get_next_subbuf (-11)] ∧
      emitted res.trace = [] ∧ count_put res.trace = 0 ∧
      res.exit = Exit.returned 0 ∧
      res.exit ≠ Exit.returned (-ex_read_env_no_subbuf.get_next_subbuf_err) := by
  refine ⟨rfl, _, rfl, ?_, ?_, ?_, ?_, ?_⟩ <;> decide

end LttngUst
